import Mathlib

/-!
Verification development for the lifetime-elision analysis
(`clippy_lints/src/lifetimes.rs`).

The Rust source analyses function signatures over a HIR-like type tree.
We embed the data model and every function the analysis consists of:
`RefLt`, the `RefVisitor` type-tree collector (`visit_ty`, `visit_lifetime`,
`record`, `collect_anonymous_lifetimes`, `into_vec`), `could_use_elision`,
`allowed_lts_from`, `lts_from_bounds`, `unique_lifetimes`,
`has_where_lifetimes`, the `LifetimeChecker` unused-lifetime detector with
`report_extra_lifetimes`, the `BodyLifetimeChecker`, and the driver
`check_fn_inner`.

External compiler services are embedded as data carried by the tree:
a path node carries the resolution (`Def`) the compiler would return for it,
including the generic-parameter count of the resolved declaration
(`resolve_declaration_arity`), and, for an existential (`impl Trait`) item,
the shape of its own bound list (which bounds are outlives bounds).
-/

/-- Identifier of a lifetime; rustc `Name`. The two keyword identifiers the
source compares against are `keywordInvalidName` (the invalid keyword, the
ident of an implicitly elided lifetime) and `staticLifetimeName`. -/
abbrev Name := String

/-- The ident rustc gives an implicit (fully elided) lifetime: `keywords::Invalid`. -/
def keywordInvalidName : Name := ""

/-- The ident of the static lifetime. -/
def staticLifetimeName : Name := "static"

/-- The ident of an underscore lifetime. -/
def underscoreLifetimeName : Name := "_"

/-- Source location of a declaration; only carried through to findings. -/
abbrev Span := Nat

/-- The lifetime of a &-reference (`RefLt` in the source). -/
inductive RefLt where
  | Unnamed
  | Static
  | Named (n : Name)
deriving DecidableEq, Repr

/-- rustc `LifetimeName`: how a lifetime is written. `implicit` is a fully
elided lifetime, `underscore` is a written wildcard, `statik` the static
lifetime, `param n` a named lifetime parameter. -/
inductive LifetimeName where
  | implicit
  | underscore
  | statik
  | param (n : Name)
deriving DecidableEq, Repr

/-- `LifetimeName::ident().name`. -/
def LifetimeName.identName : LifetimeName → Name
  | .implicit => keywordInvalidName
  | .underscore => underscoreLifetimeName
  | .statik => staticLifetimeName
  | .param n => n

/-- A lifetime node as it occurs in the tree (rustc `Lifetime`). -/
structure Lifetime where
  name : LifetimeName
deriving DecidableEq, Repr

/-- `Lifetime::is_elided()`: implicit and underscore lifetimes are elided. -/
def Lifetime.isElided (lt : Lifetime) : Bool :=
  match lt.name with
  | .implicit => true
  | .underscore => true
  | .statik => false
  | .param _ => false

/-- The resolution of a type path, as the compiler (`qpath_def` /
`generics_of` / the existential item lookup) would report it. `tyAlias`,
`structDef` and `traitDef` carry the number of generic parameters of the
resolved declaration; `existential` carries, for each bound on the
existential item, whether it is an outlives bound; `primTy` stands for a
primitive type and `err` for a path the compiler cannot resolve. -/
inductive Def where
  | tyAlias (nparams : Nat)
  | structDef (nparams : Nat)
  | traitDef (nparams : Nat)
  | existential (boundIsOutlives : List Bool)
  | primTy
  | err
deriving DecidableEq, Repr

mutual
/-- A HIR type tree. `rptr` is a reference type with its lifetime, `path` a
path to a named type carrying its resolution and its segments, `traitObject`
a trait object with bounds and a lifetime, and `tup` any other composite
node whose children are visited generically by `walk_ty`. -/
inductive Ty where
  | rptr (lt : Lifetime) (inner : Ty)
  | path (d : Def) (segments : List PathSegment)
  | traitObject (bounds : List PolyTraitRef) (lt : Lifetime)
  | tup (tys : List Ty)

/-- A path segment with its optional trailing generic-argument list
(rustc `PathSegment` with `args : Option<GenericArgs>`); `withArgs` carries
the `parenthesized` flag and the argument list. -/
inductive PathSegment where
  | noArgs
  | withArgs (parenthesized : Bool) (args : List GenericArg)

/-- A generic argument: an explicit lifetime argument or a type argument. -/
inductive GenericArg where
  | lifetimeArg (lt : Lifetime)
  | typeArg (t : Ty)

/-- rustc `PolyTraitRef`: bound generic parameters (a `for` binder) and the
trait reference path (its resolution and segments). -/
inductive PolyTraitRef where
  | mk (boundGenericParams : List GenericParam) (d : Def) (segments : List PathSegment)

/-- A generic parameter declaration: name, declaration span, kind, bounds. -/
inductive GenericParam where
  | mk (name : Name) (span : Span) (kind : GenericParamKind) (bounds : List GenericBound)

/-- Kind of a generic parameter; a type parameter may carry a default type. -/
inductive GenericParamKind where
  | lifetimeKind
  | typeKind (default : Option Ty)

/-- A bound: a trait bound or an outlives bound. -/
inductive GenericBound where
  | traitBound (ptr : PolyTraitRef)
  | outlives (lt : Lifetime)
end

/-- Name of a generic parameter. -/
def GenericParam.name : GenericParam → Name
  | .mk n _ _ _ => n

/-- Declaration span of a generic parameter. -/
def GenericParam.span : GenericParam → Span
  | .mk _ s _ _ => s

/-- Kind of a generic parameter. -/
def GenericParam.kind : GenericParam → GenericParamKind
  | .mk _ _ k _ => k

/-- Bounds of a generic parameter. -/
def GenericParam.bounds : GenericParam → List GenericBound
  | .mk _ _ _ bs => bs

/-- The type-tree region collector (`RefVisitor`): the ordered sequence of
collected descriptors and the abort flag. -/
structure RefVisitor where
  lts : List RefLt
  abort : Bool
deriving DecidableEq, Repr

/-- `RefVisitor::new`. -/
def RefVisitor.new : RefVisitor := ⟨[], false⟩

/-- `RefVisitor::record`: push the descriptor for one (optional) lifetime. -/
def RefVisitor.record (v : RefVisitor) (lifetime : Option Lifetime) : RefVisitor :=
  match lifetime with
  | some lt =>
      if lt.name = LifetimeName.statik then { v with lts := v.lts ++ [RefLt.Static] }
      else if lt.isElided then { v with lts := v.lts ++ [RefLt.Unnamed] }
      else { v with lts := v.lts ++ [RefLt.Named lt.name.identName] }
  | none => { v with lts := v.lts ++ [RefLt.Unnamed] }

/-- `RefVisitor::into_vec`: the collected sequence, unless the collector
aborted. -/
def RefVisitor.intoVec (v : RefVisitor) : Option (List RefLt) :=
  if v.abort then none else some v.lts

/-- Visiting a lifetime node records it (`RefVisitor::visit_lifetime`). -/
def RefVisitor.visit_lifetime (v : RefVisitor) (lt : Lifetime) : RefVisitor :=
  v.record (some lt)

/-- The `for _ in generics.params { self.record(&None) }` loop of
`collect_anonymous_lifetimes`: record one `Unnamed` per generic parameter of
the resolved declaration. -/
def RefVisitor.recordNoneTimes (v : RefVisitor) : Nat → RefVisitor
  | 0 => v
  | n + 1 => RefVisitor.recordNoneTimes (v.record none) n

/-- The `for bound in &exist_ty.bounds { if let Outlives = ... record(&None) }`
loop of `visit_ty` for an existential type. -/
def RefVisitor.recordExistentialBounds (v : RefVisitor) : List Bool → RefVisitor
  | [] => v
  | b :: rest => RefVisitor.recordExistentialBounds (if b then v.record none else v) rest

/-- `RefVisitor::collect_anonymous_lifetimes`: if the last path segment has
an argument list that is not parenthesized and contains no lifetime
argument, and the path resolves to a type alias, struct or trait, record one
`Unnamed` per generic parameter of the resolved declaration. -/
def RefVisitor.collect_anonymous_lifetimes (v : RefVisitor) (d : Def)
    (segments : List PathSegment) : RefVisitor :=
  match segments.getLast? with
  | some (PathSegment.withArgs parenthesized args) =>
      if ¬ parenthesized ∧
          ¬ args.any (fun arg => match arg with
            | GenericArg.lifetimeArg _ => true
            | GenericArg.typeArg _ => false) then
        match d with
        | Def.tyAlias n => v.recordNoneTimes n
        | Def.structDef n => v.recordNoneTimes n
        | Def.traitDef n => v.recordNoneTimes n
        | _ => v
      else v
  | _ => v

mutual
/-- `RefVisitor::visit_ty`. A reference with an elided lifetime records an
extra `Unnamed` before the generic walk; a path records its synthesized
anonymous lifetimes (or, for an existential, one `Unnamed` per outlives
bound of the existential item) and then walks its segments; a trait object
with a non-elided lifetime sets the abort flag, then its bounds are visited
and the object lifetime itself is not visited; any other node is walked
generically. -/
def RefVisitor.visit_ty (v : RefVisitor) : Ty → RefVisitor
  | .rptr lt inner =>
      RefVisitor.visit_ty
        ((if lt.isElided then v.record none else v).visit_lifetime lt) inner
  | .path d segments =>
      match d with
      | .existential boundIsOutlives =>
          RefVisitor.walk_segments (v.recordExistentialBounds boundIsOutlives) segments
      | _ =>
          RefVisitor.walk_segments (v.collect_anonymous_lifetimes d segments) segments
  | .traitObject bounds lt =>
      RefVisitor.visit_poly_trait_refs
        (if ¬ lt.isElided then { v with abort := true } else v) bounds
  | .tup tys => RefVisitor.visit_tys v tys

/-- Visit every type of a list in order. -/
def RefVisitor.visit_tys (v : RefVisitor) : List Ty → RefVisitor
  | [] => v
  | t :: ts => RefVisitor.visit_tys (RefVisitor.visit_ty v t) ts

/-- `walk_ty` on a path type: visit the generic arguments of each segment. -/
def RefVisitor.walk_segments (v : RefVisitor) : List PathSegment → RefVisitor
  | [] => v
  | PathSegment.noArgs :: rest => RefVisitor.walk_segments v rest
  | PathSegment.withArgs _ args :: rest =>
      RefVisitor.walk_segments (RefVisitor.visit_generic_args v args) rest

/-- Visit a generic-argument list: lifetime arguments are recorded, type
arguments are visited recursively. -/
def RefVisitor.visit_generic_args (v : RefVisitor) : List GenericArg → RefVisitor
  | [] => v
  | GenericArg.lifetimeArg lt :: rest =>
      RefVisitor.visit_generic_args (v.visit_lifetime lt) rest
  | GenericArg.typeArg t :: rest =>
      RefVisitor.visit_generic_args (RefVisitor.visit_ty v t) rest

/-- `walk_poly_trait_ref`: visit the bound generic parameters, then the
trait path. -/
def RefVisitor.visit_poly_trait_ref (v : RefVisitor) : PolyTraitRef → RefVisitor
  | .mk boundGenericParams _ segments =>
      RefVisitor.walk_segments
        (RefVisitor.walk_generic_params v boundGenericParams) segments

/-- Visit every poly trait ref of a list in order. -/
def RefVisitor.visit_poly_trait_refs (v : RefVisitor) : List PolyTraitRef → RefVisitor
  | [] => v
  | b :: bs => RefVisitor.visit_poly_trait_refs (RefVisitor.visit_poly_trait_ref v b) bs

/-- `walk_generic_param` (the default visit, used under a `for` binder):
a lifetime parameter declaration itself is not a lifetime use; a type
default type of a type parameter is visited; then the bounds of the parameter. -/
def RefVisitor.walk_generic_param (v : RefVisitor) : GenericParam → RefVisitor
  | .mk _ _ GenericParamKind.lifetimeKind bounds =>
      RefVisitor.visit_param_bounds v bounds
  | .mk _ _ (GenericParamKind.typeKind none) bounds =>
      RefVisitor.visit_param_bounds v bounds
  | .mk _ _ (GenericParamKind.typeKind (some dty)) bounds =>
      RefVisitor.visit_param_bounds (RefVisitor.visit_ty v dty) bounds

/-- Walk every generic parameter of a list in order. -/
def RefVisitor.walk_generic_params (v : RefVisitor) : List GenericParam → RefVisitor
  | [] => v
  | p :: ps => RefVisitor.walk_generic_params (RefVisitor.walk_generic_param v p) ps

/-- `walk_param_bound`: a trait bound is visited as a poly trait ref, an
outlives bound visits its lifetime. -/
def RefVisitor.visit_param_bound (v : RefVisitor) : GenericBound → RefVisitor
  | GenericBound.traitBound ptr => RefVisitor.visit_poly_trait_ref v ptr
  | GenericBound.outlives lt => v.visit_lifetime lt

/-- Visit every bound of a list in order. -/
def RefVisitor.visit_param_bounds (v : RefVisitor) : List GenericBound → RefVisitor
  | [] => v
  | b :: bs => RefVisitor.visit_param_bounds (RefVisitor.visit_param_bound v b) bs
end

/-- `walk_ty`: the generic walk of one type node, without the `visit_ty`
overrides at the root (used by `has_where_lifetimes` on bounded and equated
types). -/
def RefVisitor.walk_ty (v : RefVisitor) : Ty → RefVisitor
  | .rptr lt inner => RefVisitor.visit_ty (v.visit_lifetime lt) inner
  | .path _ segments => RefVisitor.walk_segments v segments
  | .traitObject bounds lt =>
      (RefVisitor.visit_poly_trait_refs v bounds).visit_lifetime lt
  | .tup tys => RefVisitor.visit_tys v tys

/-- Return type of a function declaration (rustc `FunctionRetTy`). -/
inductive FunctionRetTy where
  | ret (ty : Ty)
  | defaultReturn

/-- A function declaration: parameter types and return type. -/
structure FnDecl where
  inputs : List Ty
  output : FunctionRetTy

/-- A where-clause predicate. A region predicate carries the bounded
lifetime and its bounds; a bound predicate carries its own bound generic
parameters, the bounded type and the bound list; an equality predicate
carries both sides. -/
inductive WherePredicate where
  | regionPredicate (lt : Lifetime) (bounds : List GenericBound)
  | boundPredicate (boundGenericParams : List GenericParam) (boundedTy : Ty)
      (bounds : List GenericBound)
  | eqPredicate (lhsTy rhsTy : Ty)

/-- The generic parameter list and where clause of a signature. -/
structure Generics where
  params : List GenericParam
  whereClause : List WherePredicate

/-- A function body, reduced to the sequence of lifetime nodes the
`BodyLifetimeChecker` visitor would encounter in it. -/
abbrev Body := List Lifetime

/-- `allowed_lts_from`: the set of lifetimes allowed for elision: every
declared lifetime parameter without bounds, as `Named`, plus `Unnamed` and
`Static`. Represented as a list used only through membership. -/
def allowed_lts_from (named_generics : List GenericParam) : List RefLt :=
  (named_generics.filterMap (fun par =>
    match par with
    | .mk name _ GenericParamKind.lifetimeKind bounds =>
        if bounds.isEmpty then some (RefLt.Named name) else none
    | _ => none)) ++ [RefLt.Unnamed, RefLt.Static]

/-- `lts_from_bounds`: push, for every harvested bound lifetime that is not
static, a `Named` descriptor with its ident onto the given sequence. -/
def lts_from_bounds (vec : List RefLt) : List Lifetime → List RefLt
  | [] => vec
  | lt :: rest =>
      lts_from_bounds
        (if lt.name ≠ LifetimeName.statik
         then vec ++ [RefLt.Named lt.name.identName] else vec) rest

/-- `unique_lifetimes`: number of distinct descriptors in a sequence. -/
def unique_lifetimes (lts : List RefLt) : Nat :=
  lts.dedup.length

/-- The `BodyLifetimeChecker` pass over a body: true when some lifetime in
the body has an ident that is neither the invalid keyword (an implicitly
elided lifetime) nor the static ident. -/
def body_has_used_lifetime (body : Body) : Bool :=
  body.any (fun lt =>
    lt.name.identName ≠ keywordInvalidName ∧ lt.name.identName ≠ staticLifetimeName)

/-- The body check of `could_use_elision`: run the `BodyLifetimeChecker`
when a body is available. -/
def body_uses_lifetime (body : Option Body) : Bool :=
  match body with
  | some b => body_has_used_lifetime b
  | none => false

/-- The collector run over all parameter types (`input_visitor`). -/
def input_visitor (func : FnDecl) : RefVisitor :=
  RefVisitor.new.visit_tys func.inputs

/-- The collector run over the return type (`output_visitor`). -/
def output_visitor (func : FnDecl) : RefVisitor :=
  match func.output with
  | FunctionRetTy.ret ty => RefVisitor.new.visit_ty ty
  | FunctionRetTy.defaultReturn => RefVisitor.new

/-- The input region sequence fed to the elision decision: the collected
parameter-type descriptors extended by `lts_from_bounds`, unless the
collector aborted. -/
def elision_input_sequence (func : FnDecl) (bounds_lts : List Lifetime) :
    Option (List RefLt) :=
  match (input_visitor func).intoVec with
  | none => none
  | some lts => some (lts_from_bounds lts bounds_lts)

/-- `could_use_elision`: the elision feasibility decision for one signature.
Mirrors the source: abort of either collector, a lifetime used in the body,
or an out-of-scope named lifetime all make the signature not eligible; an
empty input sequence is not eligible; with no output references the inputs
must not be all unnamed-or-static and must be pairwise distinct; with output
references the outputs must agree and the single input must be a named
lifetime equal to the output (or the output elided). -/
def could_use_elision (func : FnDecl) (body : Option Body)
    (named_generics : List GenericParam) (bounds_lts : List Lifetime) : Bool :=
  let allowed_lts := allowed_lts_from named_generics
  match elision_input_sequence func bounds_lts with
  | none => false
  | some input_lts =>
    match (output_visitor func).intoVec with
    | none => false
    | some output_lts =>
      if body_uses_lifetime body then false
      else if ¬ (input_lts ++ output_lts).all (fun lt => decide (lt ∈ allowed_lts))
      then false
      else if input_lts.isEmpty then false
      else if output_lts.isEmpty then
        if input_lts.all (fun lt => lt = RefLt.Unnamed ∨ lt = RefLt.Static) then false
        else input_lts.length = unique_lifetimes input_lts
      else
        if unique_lifetimes output_lts > 1 then false
        else if input_lts.length = 1 then
          match input_lts, output_lts with
          | RefLt.Named n1 :: _, RefLt.Named n2 :: _ => n1 = n2
          | RefLt.Named _ :: _, RefLt.Unnamed :: _ => true
          | _, _ => false
        else false

/-- `has_where_lifetimes`: scan the where clause; a region predicate bails
out; a bound predicate bails out if its bounded type contains lifetime
references or, after allowing its own bound generic parameters, its bounds
contain a disallowed lifetime (but an aborted bound walk stops the whole
scan with `false`); an equality predicate bails out if either side contains
lifetime references. -/
def has_where_lifetimes : List WherePredicate → Bool
  | [] => false
  | WherePredicate.regionPredicate _ _ :: _ => true
  | WherePredicate.boundPredicate params boundedTy bounds :: rest =>
      let visitor := RefVisitor.new.walk_ty boundedTy
      if ¬ visitor.lts.isEmpty then true
      else
        let allowed_lts := allowed_lts_from params
        match (visitor.visit_param_bounds bounds).intoVec with
        | none => false
        | some lts =>
            if lts.any (fun lt => decide (lt ∉ allowed_lts)) then true
            else has_where_lifetimes rest
  | WherePredicate.eqPredicate lhsTy rhsTy :: rest =>
      if ¬ ((RefVisitor.new.walk_ty lhsTy).walk_ty rhsTy).lts.isEmpty then true
      else has_where_lifetimes rest

/-- Does a fresh bound walk collect any `Named` descriptor? (The first check
of the bound-harvesting loop in `check_fn_inner`.) -/
def named_in_bound (bound : GenericBound) : Bool :=
  (RefVisitor.new.visit_param_bound bound).lts.any (fun lt =>
    match lt with
    | RefLt.Named _ => true
    | _ => false)

/-- The explicit lifetime arguments of the last segment of a trait bound
(the `params.args` filter of the harvesting loop); empty for an outlives
bound or an argument-less path. -/
def trait_bound_arg_lifetimes (bound : GenericBound) : List Lifetime :=
  match bound with
  | GenericBound.traitBound (.mk _ _ segments) =>
      match segments.getLast? with
      | some (PathSegment.withArgs _ args) =>
          args.filterMap (fun a =>
            match a with
            | GenericArg.lifetimeArg lt => some lt
            | GenericArg.typeArg _ => none)
      | _ => []
  | GenericBound.outlives _ => []

/-- The inner lifetime-argument loop of `check_fn_inner`: each harvested
lifetime must be static or elided (anything else makes the whole harvest
fail), and is pushed onto the accumulator. -/
def process_bound_lifetimes (acc : List Lifetime) : List Lifetime → Option (List Lifetime)
  | [] => some acc
  | lt :: rest =>
      if lt.name ≠ LifetimeName.statik ∧ lt.isElided = false then none
      else process_bound_lifetimes (acc ++ [lt]) rest

/-- Processing of one bound of a type parameter in `check_fn_inner`: fail if
a fresh walk of the bound collects a `Named` descriptor, otherwise harvest
the lifetime arguments of a trait bound. -/
def process_bound (acc : List Lifetime) (bound : GenericBound) : Option (List Lifetime) :=
  if named_in_bound bound then none
  else process_bound_lifetimes acc (trait_bound_arg_lifetimes bound)

/-- Process every bound of one type parameter in order. -/
def process_param_bounds (acc : List Lifetime) : List GenericBound → Option (List Lifetime)
  | [] => some acc
  | bound :: rest =>
      match process_bound acc bound with
      | none => none
      | some acc2 => process_param_bounds acc2 rest

/-- The harvesting loop of `check_fn_inner` over the declared generic
parameters: only type parameters are inspected; `none` models the early
return that suppresses the whole analysis. -/
def collect_bounds_lts (acc : List Lifetime) : List GenericParam → Option (List Lifetime)
  | [] => some acc
  | .mk _ _ (GenericParamKind.typeKind _) bounds :: rest =>
      (match process_param_bounds acc bounds with
       | none => none
       | some acc2 => collect_bounds_lts acc2 rest)
  | .mk _ _ GenericParamKind.lifetimeKind _ :: rest => collect_bounds_lts acc rest

/-- The state of the `LifetimeChecker` unused-lifetime detector: the map
from declared lifetime idents to their declaration spans, as an association
list (the source uses a hash map keyed by the ident). -/
abbrev LtMap := List (Name × Span)

/-- `LifetimeChecker::visit_lifetime`: remove the visited ident. -/
def LifetimeChecker.visit_lifetime (m : LtMap) (lt : Lifetime) : LtMap :=
  m.filter (fun p => decide (p.1 ≠ lt.name.identName))

mutual
/-- The default `visit_ty`/`walk_ty` of the `LifetimeChecker`: every
lifetime node of the tree is visited and removed from the map. -/
def LifetimeChecker.visit_ty (m : LtMap) : Ty → LtMap
  | .rptr lt inner =>
      LifetimeChecker.visit_ty (LifetimeChecker.visit_lifetime m lt) inner
  | .path _ segments => LifetimeChecker.walk_segments m segments
  | .traitObject bounds lt =>
      LifetimeChecker.visit_lifetime
        (LifetimeChecker.visit_poly_trait_refs m bounds) lt
  | .tup tys => LifetimeChecker.visit_tys m tys

/-- Visit every type of a list in order. -/
def LifetimeChecker.visit_tys (m : LtMap) : List Ty → LtMap
  | [] => m
  | t :: ts => LifetimeChecker.visit_tys (LifetimeChecker.visit_ty m t) ts

/-- Visit the generic arguments of each segment. -/
def LifetimeChecker.walk_segments (m : LtMap) : List PathSegment → LtMap
  | [] => m
  | PathSegment.noArgs :: rest => LifetimeChecker.walk_segments m rest
  | PathSegment.withArgs _ args :: rest =>
      LifetimeChecker.walk_segments (LifetimeChecker.visit_generic_args m args) rest

/-- Visit a generic-argument list. -/
def LifetimeChecker.visit_generic_args (m : LtMap) : List GenericArg → LtMap
  | [] => m
  | GenericArg.lifetimeArg lt :: rest =>
      LifetimeChecker.visit_generic_args (LifetimeChecker.visit_lifetime m lt) rest
  | GenericArg.typeArg t :: rest =>
      LifetimeChecker.visit_generic_args (LifetimeChecker.visit_ty m t) rest

/-- Visit a poly trait ref: its bound generic parameters (through the
overridden `visit_generic_param`), then the trait path. -/
def LifetimeChecker.visit_poly_trait_ref (m : LtMap) : PolyTraitRef → LtMap
  | .mk boundGenericParams _ segments =>
      LifetimeChecker.walk_segments
        (LifetimeChecker.visit_generic_params m boundGenericParams) segments

/-- Visit every poly trait ref of a list in order. -/
def LifetimeChecker.visit_poly_trait_refs (m : LtMap) : List PolyTraitRef → LtMap
  | [] => m
  | b :: bs =>
      LifetimeChecker.visit_poly_trait_refs (LifetimeChecker.visit_poly_trait_ref m b) bs

/-- The overridden `LifetimeChecker::visit_generic_param`: a lifetime
parameter declaration is skipped entirely (so neither the declaration nor
the outlives bounds inside it count as uses); a type parameter is walked
normally (default type, then bounds). -/
def LifetimeChecker.visit_generic_param (m : LtMap) : GenericParam → LtMap
  | .mk _ _ GenericParamKind.lifetimeKind _ => m
  | .mk _ _ (GenericParamKind.typeKind none) bounds =>
      LifetimeChecker.visit_param_bounds m bounds
  | .mk _ _ (GenericParamKind.typeKind (some dty)) bounds =>
      LifetimeChecker.visit_param_bounds (LifetimeChecker.visit_ty m dty) bounds

/-- Visit every generic parameter of a list in order. -/
def LifetimeChecker.visit_generic_params (m : LtMap) : List GenericParam → LtMap
  | [] => m
  | p :: ps =>
      LifetimeChecker.visit_generic_params (LifetimeChecker.visit_generic_param m p) ps

/-- `walk_param_bound` for the `LifetimeChecker`. -/
def LifetimeChecker.visit_param_bound (m : LtMap) : GenericBound → LtMap
  | GenericBound.traitBound ptr => LifetimeChecker.visit_poly_trait_ref m ptr
  | GenericBound.outlives lt => LifetimeChecker.visit_lifetime m lt

/-- Visit every bound of a list in order. -/
def LifetimeChecker.visit_param_bounds (m : LtMap) : List GenericBound → LtMap
  | [] => m
  | b :: bs =>
      LifetimeChecker.visit_param_bounds (LifetimeChecker.visit_param_bound m b) bs
end

/-- `walk_where_predicate` for the `LifetimeChecker`: a bound predicate
visits its bounded type, bounds, and (through the overridden parameter
visit) its own bound generic parameters; a region predicate visits its
lifetime and bounds; an equality predicate visits both sides. -/
def LifetimeChecker.visit_where_predicate (m : LtMap) : WherePredicate → LtMap
  | WherePredicate.boundPredicate params boundedTy bounds =>
      LifetimeChecker.visit_generic_params
        (LifetimeChecker.visit_param_bounds
          (LifetimeChecker.visit_ty m boundedTy) bounds) params
  | WherePredicate.regionPredicate lt bounds =>
      LifetimeChecker.visit_param_bounds
        (LifetimeChecker.visit_lifetime m lt) bounds
  | WherePredicate.eqPredicate lhsTy rhsTy =>
      LifetimeChecker.visit_ty (LifetimeChecker.visit_ty m lhsTy) rhsTy

/-- Visit every where predicate of a list in order. -/
def LifetimeChecker.visit_where_predicates (m : LtMap) : List WherePredicate → LtMap
  | [] => m
  | p :: ps =>
      LifetimeChecker.visit_where_predicates (LifetimeChecker.visit_where_predicate m p) ps

/-- `walk_generics` for the `LifetimeChecker`: the generic parameters
(through the overridden visit), then the where clause. -/
def LifetimeChecker.walk_generics (m : LtMap) (generics : Generics) : LtMap :=
  LifetimeChecker.visit_where_predicates
    (LifetimeChecker.visit_generic_params m generics.params) generics.whereClause

/-- `walk_fn_decl` for the `LifetimeChecker`: the parameter types, then the
return type. -/
def LifetimeChecker.walk_fn_decl (m : LtMap) (func : FnDecl) : LtMap :=
  match func.output with
  | FunctionRetTy.ret ty =>
      LifetimeChecker.visit_ty (LifetimeChecker.visit_tys m func.inputs) ty
  | FunctionRetTy.defaultReturn => LifetimeChecker.visit_tys m func.inputs

/-- The declared lifetime parameters of a generic parameter list, with their
declaration spans (the initial map of `report_extra_lifetimes`). -/
def declared_lifetimes (params : List GenericParam) : LtMap :=
  params.filterMap (fun par =>
    match par with
    | .mk name span GenericParamKind.lifetimeKind _ => some (name, span)
    | _ => none)

/-- `report_extra_lifetimes`: build the map of declared lifetime parameters,
walk the generics and the function declaration removing every ident
encountered, and report what remains. -/
def report_extra_lifetimes (func : FnDecl) (generics : Generics) : LtMap :=
  LifetimeChecker.walk_fn_decl
    (LifetimeChecker.walk_generics (declared_lifetimes generics.params) generics) func

/-- `check_fn_inner`: the driver for one signature. Returns the elision
verdict and the unused-lifetime findings. An externally generated signature,
a where clause mentioning lifetimes, or a failed bound harvest suppress the
whole analysis (no verdict, no findings). -/
def check_fn_inner (from_expansion : Bool) (decl : FnDecl) (body : Option Body)
    (generics : Generics) : Bool × LtMap :=
  if from_expansion || has_where_lifetimes generics.whereClause then (false, [])
  else
    match collect_bounds_lts [] generics.params with
    | none => (false, [])
    | some bounds_lts =>
        (could_use_elision decl body generics.params bounds_lts,
         report_extra_lifetimes decl generics)

/-- Combination of two visitor states: the collected sequences concatenate
and the abort flags disjoin. `f (v.delta w) x = v.delta (f w x)` holds for
every visiting function because the visitor only appends descriptors and
raises the abort flag, never reading its own state. -/
def RefVisitor.delta (v w : RefVisitor) : RefVisitor :=
  ⟨v.lts ++ w.lts, v.abort || w.abort⟩

/-- The descriptor `record` pushes for an explicit lifetime node. -/
def recordedLt (lt : Lifetime) : List RefLt :=
  if lt.name = LifetimeName.statik then [RefLt.Static]
  else if lt.isElided then [RefLt.Unnamed]
  else [RefLt.Named lt.name.identName]

/-- Number of outlives bounds of an existential item (the number of
`Unnamed` descriptors `visit_ty` synthesizes for it). -/
def outlives_bound_count (bs : List Bool) : Nat :=
  bs.count true

/-- The number of `Unnamed` descriptors `collect_anonymous_lifetimes`
synthesizes: the generic-parameter count of the resolved type alias, struct
or trait declaration when the last segment carries a non-parenthesized
argument list without explicit lifetime arguments, and zero otherwise. -/
def anon_count (d : Def) (segments : List PathSegment) : Nat :=
  match segments.getLast? with
  | some (PathSegment.withArgs parenthesized args) =>
      if ¬ parenthesized ∧
          ¬ args.any (fun arg => match arg with
            | GenericArg.lifetimeArg _ => true
            | GenericArg.typeArg _ => false) then
        match d with
        | Def.tyAlias n => n
        | Def.structDef n => n
        | Def.traitDef n => n
        | _ => 0
      else 0
  | _ => 0

mutual
/-- Does the type tree contain a trait-object node whose lifetime is not
elided (the only construct that sets the collector abort flag)? Purely
structural containment over all positions the collector descends into. -/
def explicit_trait_object_in_ty : Ty → Bool
  | .rptr _ inner => explicit_trait_object_in_ty inner
  | .path _ segments => explicit_trait_object_in_segments segments
  | .traitObject bounds lt =>
      !lt.isElided || explicit_trait_object_in_ptrs bounds
  | .tup tys => explicit_trait_object_in_tys tys

/-- Containment in any type of a list. -/
def explicit_trait_object_in_tys : List Ty → Bool
  | [] => false
  | t :: ts => explicit_trait_object_in_ty t || explicit_trait_object_in_tys ts

/-- Containment in the generic arguments of any segment. -/
def explicit_trait_object_in_segments : List PathSegment → Bool
  | [] => false
  | PathSegment.noArgs :: rest => explicit_trait_object_in_segments rest
  | PathSegment.withArgs _ args :: rest =>
      explicit_trait_object_in_args args || explicit_trait_object_in_segments rest

/-- Containment in a generic-argument list. -/
def explicit_trait_object_in_args : List GenericArg → Bool
  | [] => false
  | GenericArg.lifetimeArg _ :: rest => explicit_trait_object_in_args rest
  | GenericArg.typeArg t :: rest =>
      explicit_trait_object_in_ty t || explicit_trait_object_in_args rest

/-- Containment in a poly trait ref. -/
def explicit_trait_object_in_ptr : PolyTraitRef → Bool
  | .mk boundGenericParams _ segments =>
      explicit_trait_object_in_params boundGenericParams ||
        explicit_trait_object_in_segments segments

/-- Containment in any poly trait ref of a list. -/
def explicit_trait_object_in_ptrs : List PolyTraitRef → Bool
  | [] => false
  | b :: bs => explicit_trait_object_in_ptr b || explicit_trait_object_in_ptrs bs

/-- Containment in a generic parameter (default type or bounds). -/
def explicit_trait_object_in_param : GenericParam → Bool
  | .mk _ _ GenericParamKind.lifetimeKind bounds =>
      explicit_trait_object_in_bounds bounds
  | .mk _ _ (GenericParamKind.typeKind none) bounds =>
      explicit_trait_object_in_bounds bounds
  | .mk _ _ (GenericParamKind.typeKind (some dty)) bounds =>
      explicit_trait_object_in_ty dty || explicit_trait_object_in_bounds bounds

/-- Containment in any generic parameter of a list. -/
def explicit_trait_object_in_params : List GenericParam → Bool
  | [] => false
  | p :: ps => explicit_trait_object_in_param p || explicit_trait_object_in_params ps

/-- Containment in a bound. -/
def explicit_trait_object_in_bound : GenericBound → Bool
  | GenericBound.traitBound ptr => explicit_trait_object_in_ptr ptr
  | GenericBound.outlives _ => false

/-- Containment in any bound of a list. -/
def explicit_trait_object_in_bounds : List GenericBound → Bool
  | [] => false
  | b :: bs => explicit_trait_object_in_bound b || explicit_trait_object_in_bounds bs
end

/-- Elementary concrete trees used by the closed witness statements. -/
def tyU8 : Ty := Ty.path Def.primTy [PathSegment.noArgs]

/-- A reference type with the named lifetime of ident a. -/
def tyRefA : Ty := Ty.rptr ⟨LifetimeName.param "a"⟩ tyU8

/-- A reference type with the named lifetime of ident b. -/
def tyRefB : Ty := Ty.rptr ⟨LifetimeName.param "b"⟩ tyU8

/-- The declaration of a lifetime parameter of ident a, without bounds. -/
def paramLtA : GenericParam := GenericParam.mk "a" 0 GenericParamKind.lifetimeKind []

/-- The declaration of a lifetime parameter of ident b, without bounds. -/
def paramLtB : GenericParam := GenericParam.mk "b" 1 GenericParamKind.lifetimeKind []

/-- The trailing-segment condition under which the collector synthesizes
anonymous lifetimes: an argument list is present, it is not parenthesized,
and it contains no explicit lifetime argument (explicit type arguments are
irrelevant). -/
def no_explicit_lifetime_args (segments : List PathSegment) : Prop :=
  ∃ args : List GenericArg,
    segments.getLast? = some (PathSegment.withArgs false args) ∧
    ∀ lt : Lifetime, GenericArg.lifetimeArg lt ∉ args

/-- The bail-out conditions of the constraint-clause scanner, per predicate,
as the claim states them: a bare region-outlives predicate; a bound
predicate whose bounded type contains a lifetime reference or whose bounds
contain a descriptor outside its own allowed set; an equality predicate
with a lifetime reference on either side. -/
def predicate_triggers_bailout : WherePredicate → Prop
  | WherePredicate.regionPredicate _ _ => True
  | WherePredicate.boundPredicate params boundedTy bounds =>
      (RefVisitor.new.walk_ty boundedTy).lts ≠ [] ∨
        ∃ lt ∈ (RefVisitor.new.visit_param_bounds bounds).lts,
          lt ∉ allowed_lts_from params
  | WherePredicate.eqPredicate lhsTy rhsTy =>
      (RefVisitor.new.walk_ty lhsTy).lts ≠ [] ∨
        (RefVisitor.new.walk_ty rhsTy).lts ≠ []

/-- A predicate list on which the scanner contradicts the claim: the first
predicate holds a nested trait object with a named lifetime (which aborts
the bound walk), the second is a bare region-outlives predicate. -/
def cPredsC3 : List WherePredicate :=
  [WherePredicate.boundPredicate [] (Ty.tup [Ty.traitObject [] ⟨LifetimeName.param "x"⟩]) [],
   WherePredicate.regionPredicate ⟨LifetimeName.statik⟩ []]

mutual
/-- The lifetime idents the `LifetimeChecker` encounters (and removes) in a
type, in visit order — the two-phase reformulation of the remove-on-visit
detector. -/
def used_lt_names_ty : Ty → List Name
  | .rptr lt inner => lt.name.identName :: used_lt_names_ty inner
  | .path _ segments => used_lt_names_segments segments
  | .traitObject bounds lt => used_lt_names_ptrs bounds ++ [lt.name.identName]
  | .tup tys => used_lt_names_tys tys

/-- Idents encountered in a type list. -/
def used_lt_names_tys : List Ty → List Name
  | [] => []
  | t :: ts => used_lt_names_ty t ++ used_lt_names_tys ts

/-- Idents encountered in the generic arguments of the segments. -/
def used_lt_names_segments : List PathSegment → List Name
  | [] => []
  | PathSegment.noArgs :: rest => used_lt_names_segments rest
  | PathSegment.withArgs _ args :: rest =>
      used_lt_names_args args ++ used_lt_names_segments rest

/-- Idents encountered in a generic-argument list. -/
def used_lt_names_args : List GenericArg → List Name
  | [] => []
  | GenericArg.lifetimeArg lt :: rest => lt.name.identName :: used_lt_names_args rest
  | GenericArg.typeArg t :: rest => used_lt_names_ty t ++ used_lt_names_args rest

/-- Idents encountered in a poly trait ref. -/
def used_lt_names_ptr : PolyTraitRef → List Name
  | .mk boundGenericParams _ segments =>
      used_lt_names_params boundGenericParams ++ used_lt_names_segments segments

/-- Idents encountered in a poly trait ref list. -/
def used_lt_names_ptrs : List PolyTraitRef → List Name
  | [] => []
  | b :: bs => used_lt_names_ptr b ++ used_lt_names_ptrs bs

/-- Idents encountered in a generic parameter: a lifetime parameter
declaration contributes nothing (neither its name nor its own outlives
bounds count as uses); a type parameter contributes its default type and
its bounds. -/
def used_lt_names_param : GenericParam → List Name
  | .mk _ _ GenericParamKind.lifetimeKind _ => []
  | .mk _ _ (GenericParamKind.typeKind none) bounds => used_lt_names_bounds bounds
  | .mk _ _ (GenericParamKind.typeKind (some dty)) bounds =>
      used_lt_names_ty dty ++ used_lt_names_bounds bounds

/-- Idents encountered in a generic parameter list. -/
def used_lt_names_params : List GenericParam → List Name
  | [] => []
  | p :: ps => used_lt_names_param p ++ used_lt_names_params ps

/-- Idents encountered in a bound. -/
def used_lt_names_bound : GenericBound → List Name
  | GenericBound.traitBound ptr => used_lt_names_ptr ptr
  | GenericBound.outlives lt => [lt.name.identName]

/-- Idents encountered in a bound list. -/
def used_lt_names_bounds : List GenericBound → List Name
  | [] => []
  | b :: bs => used_lt_names_bound b ++ used_lt_names_bounds bs
end

/-- The lifetime idents the detector encounters in one where predicate. -/
def used_lt_names_where_predicate : WherePredicate → List Name
  | WherePredicate.boundPredicate params boundedTy bounds =>
      used_lt_names_ty boundedTy ++ used_lt_names_bounds bounds ++
        used_lt_names_params params
  | WherePredicate.regionPredicate lt bounds =>
      lt.name.identName :: used_lt_names_bounds bounds
  | WherePredicate.eqPredicate lhsTy rhsTy =>
      used_lt_names_ty lhsTy ++ used_lt_names_ty rhsTy

/-- Idents encountered in a where-predicate list. -/
def used_lt_names_where_predicates : List WherePredicate → List Name
  | [] => []
  | p :: ps => used_lt_names_where_predicate p ++ used_lt_names_where_predicates ps

/-- Idents encountered while walking the generic parameter list and the
where clause. -/
def used_lt_names_generics (generics : Generics) : List Name :=
  used_lt_names_params generics.params ++
    used_lt_names_where_predicates generics.whereClause

/-- Idents encountered while walking the parameter types and the return
type. -/
def used_lt_names_fn_decl (func : FnDecl) : List Name :=
  used_lt_names_tys func.inputs ++
    (match func.output with
     | FunctionRetTy.ret ty => used_lt_names_ty ty
     | FunctionRetTy.defaultReturn => [])

/-- The lifetime idents referenced anywhere in the signature outside the
generic-parameter declaration list: type-parameter bounds and defaults,
where-clause predicates, parameter types and return type. -/
def signature_lifetime_uses (func : FnDecl) (generics : Generics) : List Name :=
  used_lt_names_generics generics ++ used_lt_names_fn_decl func

@[simp] theorem RefVisitor.delta_new_left (w : RefVisitor) :
    RefVisitor.new.delta w = w := by
  simp [RefVisitor.delta, RefVisitor.new]

@[simp] theorem RefVisitor.delta_new_right (v : RefVisitor) :
    v.delta RefVisitor.new = v := by
  simp [RefVisitor.delta, RefVisitor.new]

theorem RefVisitor.delta_assoc (u v w : RefVisitor) :
    (u.delta v).delta w = u.delta (v.delta w) := by
  simp [RefVisitor.delta, Bool.or_assoc]

theorem RefVisitor.record_none_delta (v : RefVisitor) :
    v.record none = v.delta ⟨[RefLt.Unnamed], false⟩ := by
  simp [RefVisitor.record, RefVisitor.delta]

theorem RefVisitor.record_some_delta (v : RefVisitor) (lt : Lifetime) :
    v.record (some lt) = v.delta ⟨recordedLt lt, false⟩ := by
  simp only [RefVisitor.record, recordedLt, RefVisitor.delta]
  split_ifs <;> simp

theorem RefVisitor.visit_lifetime_delta (v : RefVisitor) (lt : Lifetime) :
    v.visit_lifetime lt = v.delta ⟨recordedLt lt, false⟩ := by
  simp [RefVisitor.visit_lifetime, RefVisitor.record_some_delta]

theorem RefVisitor.recordNoneTimes_delta (n : Nat) :
    ∀ v : RefVisitor, v.recordNoneTimes n = v.delta ⟨List.replicate n RefLt.Unnamed, false⟩ := by
  induction n with
  | zero => intro v; simp [RefVisitor.recordNoneTimes, RefVisitor.delta]
  | succ n ih =>
      intro v
      simp only [RefVisitor.recordNoneTimes, ih, RefVisitor.record_none_delta,
        RefVisitor.delta_assoc]
      simp [RefVisitor.delta, List.replicate_succ]

theorem RefVisitor.recordExistentialBounds_delta (bs : List Bool) :
    ∀ v : RefVisitor,
      v.recordExistentialBounds bs =
        v.delta ⟨List.replicate (outlives_bound_count bs) RefLt.Unnamed, false⟩ := by
  induction bs with
  | nil => intro v; simp [RefVisitor.recordExistentialBounds, outlives_bound_count,
      RefVisitor.delta]
  | cons b rest ih =>
      intro v
      cases b <;>
        simp only [RefVisitor.recordExistentialBounds, if_true, if_false, ih,
          RefVisitor.record_none_delta, RefVisitor.delta_assoc] <;>
        simp [RefVisitor.delta, outlives_bound_count, List.count_cons,
          List.replicate_succ]

theorem RefVisitor.collect_anonymous_delta (v : RefVisitor) (d : Def)
    (segments : List PathSegment) :
    v.collect_anonymous_lifetimes d segments =
      v.delta ⟨List.replicate (anon_count d segments) RefLt.Unnamed, false⟩ := by
  simp only [RefVisitor.collect_anonymous_lifetimes, anon_count]
  split
  · split_ifs with hc
    · cases d <;> simp [RefVisitor.recordNoneTimes_delta, RefVisitor.delta]
    · simp [RefVisitor.delta]
  · simp [RefVisitor.delta]

theorem RefVisitor.set_abort_delta (v : RefVisitor) :
    (⟨v.lts, true⟩ : RefVisitor) = v.delta ⟨[], true⟩ := by
  simp [RefVisitor.delta]

/-- Compositionality of the whole visitor family: visiting from a combined
state `w.delta ww` is the same as visiting from `ww` and prepending `w`.
The collector appends descriptors and raises the abort flag but never reads
its own state, so its effect is a monoid action. -/
theorem RefVisitor.visit_comp :
    (∀ (_ : RefVisitor) (t : Ty), ∀ w ww,
        RefVisitor.visit_ty (RefVisitor.delta w ww) t =
          w.delta (RefVisitor.visit_ty ww t)) ∧
    (∀ (_ : RefVisitor) (ts : List Ty), ∀ w ww,
        RefVisitor.visit_tys (RefVisitor.delta w ww) ts =
          w.delta (RefVisitor.visit_tys ww ts)) ∧
    (∀ (_ : RefVisitor) (bs : List PolyTraitRef), ∀ w ww,
        RefVisitor.visit_poly_trait_refs (RefVisitor.delta w ww) bs =
          w.delta (RefVisitor.visit_poly_trait_refs ww bs)) ∧
    (∀ (_ : RefVisitor) (b : PolyTraitRef), ∀ w ww,
        RefVisitor.visit_poly_trait_ref (RefVisitor.delta w ww) b =
          w.delta (RefVisitor.visit_poly_trait_ref ww b)) ∧
    (∀ (_ : RefVisitor) (ps : List GenericParam), ∀ w ww,
        RefVisitor.walk_generic_params (RefVisitor.delta w ww) ps =
          w.delta (RefVisitor.walk_generic_params ww ps)) ∧
    (∀ (_ : RefVisitor) (p : GenericParam), ∀ w ww,
        RefVisitor.walk_generic_param (RefVisitor.delta w ww) p =
          w.delta (RefVisitor.walk_generic_param ww p)) ∧
    (∀ (_ : RefVisitor) (bs : List GenericBound), ∀ w ww,
        RefVisitor.visit_param_bounds (RefVisitor.delta w ww) bs =
          w.delta (RefVisitor.visit_param_bounds ww bs)) ∧
    (∀ (_ : RefVisitor) (b : GenericBound), ∀ w ww,
        RefVisitor.visit_param_bound (RefVisitor.delta w ww) b =
          w.delta (RefVisitor.visit_param_bound ww b)) ∧
    (∀ (_ : RefVisitor) (segs : List PathSegment), ∀ w ww,
        RefVisitor.walk_segments (RefVisitor.delta w ww) segs =
          w.delta (RefVisitor.walk_segments ww segs)) ∧
    (∀ (_ : RefVisitor) (args : List GenericArg), ∀ w ww,
        RefVisitor.visit_generic_args (RefVisitor.delta w ww) args =
          w.delta (RefVisitor.visit_generic_args ww args)) := by
  apply RefVisitor.visit_ty.mutual_induct
  · intro v lt inner ih w ww
    by_cases h : lt.isElided <;>
      simp [RefVisitor.visit_ty, h, RefVisitor.record_none_delta,
        RefVisitor.visit_lifetime_delta, RefVisitor.delta_assoc, ih]
  · intro v segments bIO ih w ww
    simp [RefVisitor.visit_ty, RefVisitor.recordExistentialBounds_delta,
      RefVisitor.delta_assoc, ih]
  · intro v d segments hne ih w ww
    cases d with
    | existential bIO => exact absurd rfl (hne bIO)
    | tyAlias n =>
        simp [RefVisitor.visit_ty, RefVisitor.collect_anonymous_delta,
          RefVisitor.delta_assoc, ih]
    | structDef n =>
        simp [RefVisitor.visit_ty, RefVisitor.collect_anonymous_delta,
          RefVisitor.delta_assoc, ih]
    | traitDef n =>
        simp [RefVisitor.visit_ty, RefVisitor.collect_anonymous_delta,
          RefVisitor.delta_assoc, ih]
    | primTy =>
        simp [RefVisitor.visit_ty, RefVisitor.collect_anonymous_delta,
          RefVisitor.delta_assoc, ih]
    | err =>
        simp [RefVisitor.visit_ty, RefVisitor.collect_anonymous_delta,
          RefVisitor.delta_assoc, ih]
  · intro v bounds lt ih w ww
    by_cases h : lt.isElided <;>
      simp [RefVisitor.visit_ty, h, RefVisitor.set_abort_delta,
        RefVisitor.delta_assoc, ih]
  · intro v tys ih w ww
    simp [RefVisitor.visit_ty, ih]
  · intro v bgs d segs ih5 ih9 w ww
    simp [RefVisitor.visit_poly_trait_ref, ih5, ih9]
  · intro v name span bounds ih w ww
    simp [RefVisitor.walk_generic_param, ih]
  · intro v name span bounds ih w ww
    simp [RefVisitor.walk_generic_param, ih]
  · intro v name span dty bounds ih1 ih7 w ww
    simp [RefVisitor.walk_generic_param, ih1, ih7]
  · intro v ptr ih w ww
    simp [RefVisitor.visit_param_bound, ih]
  · intro v lt w ww
    simp [RefVisitor.visit_param_bound, RefVisitor.visit_lifetime_delta,
      RefVisitor.delta_assoc]
  · intro v w ww
    simp [RefVisitor.walk_segments]
  · intro v rest ih w ww
    simp [RefVisitor.walk_segments, ih]
  · intro v p args rest ih10 ih9 w ww
    simp [RefVisitor.walk_segments, ih10, ih9]
  · intro v w ww
    simp [RefVisitor.visit_poly_trait_refs]
  · intro v b bs ih4 ih3 w ww
    simp [RefVisitor.visit_poly_trait_refs, ih4, ih3]
  · intro v w ww
    simp [RefVisitor.visit_tys]
  · intro v t ts ih1 ih2 w ww
    simp [RefVisitor.visit_tys, ih1, ih2]
  · intro v w ww
    simp [RefVisitor.visit_generic_args]
  · intro v lt rest ih w ww
    simp [RefVisitor.visit_generic_args, RefVisitor.visit_lifetime_delta,
      RefVisitor.delta_assoc, ih]
  · intro v t rest ih1 ih10 w ww
    simp [RefVisitor.visit_generic_args, ih1, ih10]
  · intro v w ww
    simp [RefVisitor.walk_generic_params]
  · intro v p ps ih6 ih5 w ww
    simp [RefVisitor.walk_generic_params, ih6, ih5]
  · intro v w ww
    simp [RefVisitor.visit_param_bounds]
  · intro v b bs ih8 ih7 w ww
    simp [RefVisitor.visit_param_bounds, ih8, ih7]

@[simp] theorem RefVisitor.delta_lts (v w : RefVisitor) :
    (v.delta w).lts = v.lts ++ w.lts := rfl

@[simp] theorem RefVisitor.delta_abort (v w : RefVisitor) :
    (v.delta w).abort = (v.abort || w.abort) := rfl

@[simp] theorem RefVisitor.new_lts : RefVisitor.new.lts = [] := rfl

@[simp] theorem RefVisitor.new_abort : RefVisitor.new.abort = false := rfl

theorem RefVisitor.visit_ty_comp (w ww : RefVisitor) (t : Ty) :
    RefVisitor.visit_ty (w.delta ww) t = w.delta (RefVisitor.visit_ty ww t) :=
  RefVisitor.visit_comp.1 RefVisitor.new t w ww

theorem RefVisitor.visit_tys_comp (w ww : RefVisitor) (ts : List Ty) :
    RefVisitor.visit_tys (w.delta ww) ts = w.delta (RefVisitor.visit_tys ww ts) :=
  RefVisitor.visit_comp.2.1 RefVisitor.new ts w ww

theorem RefVisitor.visit_poly_trait_refs_comp (w ww : RefVisitor) (bs : List PolyTraitRef) :
    RefVisitor.visit_poly_trait_refs (w.delta ww) bs =
      w.delta (RefVisitor.visit_poly_trait_refs ww bs) :=
  RefVisitor.visit_comp.2.2.1 RefVisitor.new bs w ww

theorem RefVisitor.visit_param_bounds_comp (w ww : RefVisitor) (bs : List GenericBound) :
    RefVisitor.visit_param_bounds (w.delta ww) bs =
      w.delta (RefVisitor.visit_param_bounds ww bs) :=
  RefVisitor.visit_comp.2.2.2.2.2.2.1 RefVisitor.new bs w ww

theorem RefVisitor.walk_segments_comp (w ww : RefVisitor) (segs : List PathSegment) :
    RefVisitor.walk_segments (w.delta ww) segs =
      w.delta (RefVisitor.walk_segments ww segs) :=
  RefVisitor.visit_comp.2.2.2.2.2.2.2.2.1 RefVisitor.new segs w ww

/-- Visiting from an arbitrary state is the delta applied to that state. -/
theorem RefVisitor.visit_ty_delta (v : RefVisitor) (t : Ty) :
    v.visit_ty t = v.delta (RefVisitor.new.visit_ty t) := by
  have h := RefVisitor.visit_ty_comp v RefVisitor.new t
  rwa [RefVisitor.delta_new_right] at h

theorem RefVisitor.visit_tys_delta (v : RefVisitor) (ts : List Ty) :
    v.visit_tys ts = v.delta (RefVisitor.new.visit_tys ts) := by
  have h := RefVisitor.visit_tys_comp v RefVisitor.new ts
  rwa [RefVisitor.delta_new_right] at h

theorem RefVisitor.visit_param_bounds_delta (v : RefVisitor) (bs : List GenericBound) :
    v.visit_param_bounds bs = v.delta (RefVisitor.new.visit_param_bounds bs) := by
  have h := RefVisitor.visit_param_bounds_comp v RefVisitor.new bs
  rwa [RefVisitor.delta_new_right] at h

theorem RefVisitor.visit_poly_trait_refs_delta (v : RefVisitor) (bs : List PolyTraitRef) :
    v.visit_poly_trait_refs bs = v.delta (RefVisitor.new.visit_poly_trait_refs bs) := by
  have h := RefVisitor.visit_poly_trait_refs_comp v RefVisitor.new bs
  rwa [RefVisitor.delta_new_right] at h

theorem RefVisitor.walk_ty_comp (w ww : RefVisitor) (t : Ty) :
    RefVisitor.walk_ty (w.delta ww) t = w.delta (RefVisitor.walk_ty ww t) := by
  cases t with
  | rptr lt inner =>
      simp [RefVisitor.walk_ty, RefVisitor.visit_lifetime_delta,
        RefVisitor.delta_assoc, RefVisitor.visit_ty_comp]
  | path d segments =>
      simp [RefVisitor.walk_ty, RefVisitor.walk_segments_comp]
  | traitObject bounds lt =>
      simp [RefVisitor.walk_ty, RefVisitor.visit_poly_trait_refs_comp,
        RefVisitor.visit_lifetime_delta, RefVisitor.delta_assoc]
  | tup tys =>
      simp [RefVisitor.walk_ty, RefVisitor.visit_tys_comp]

theorem RefVisitor.walk_ty_delta (v : RefVisitor) (t : Ty) :
    v.walk_ty t = v.delta (RefVisitor.new.walk_ty t) := by
  have h := RefVisitor.walk_ty_comp v RefVisitor.new t
  rwa [RefVisitor.delta_new_right] at h

/-- Splitting a list visit at the head. -/
theorem RefVisitor.visit_tys_cons (t : Ty) (ts : List Ty) :
    RefVisitor.new.visit_tys (t :: ts) =
      (RefVisitor.new.visit_ty t).delta (RefVisitor.new.visit_tys ts) := by
  simp only [RefVisitor.visit_tys]
  exact RefVisitor.visit_tys_delta _ ts

/-- The collector abort flag is raised exactly by trait-object nodes with a
non-elided lifetime: after any visit, the flag is the disjunction of the
incoming flag and structural containment of such a node. -/
theorem RefVisitor.abort_iff :
    (∀ (_ : RefVisitor) (t : Ty), ∀ w,
        (RefVisitor.visit_ty w t).abort = (w.abort || explicit_trait_object_in_ty t)) ∧
    (∀ (_ : RefVisitor) (ts : List Ty), ∀ w,
        (RefVisitor.visit_tys w ts).abort = (w.abort || explicit_trait_object_in_tys ts)) ∧
    (∀ (_ : RefVisitor) (bs : List PolyTraitRef), ∀ w,
        (RefVisitor.visit_poly_trait_refs w bs).abort =
          (w.abort || explicit_trait_object_in_ptrs bs)) ∧
    (∀ (_ : RefVisitor) (b : PolyTraitRef), ∀ w,
        (RefVisitor.visit_poly_trait_ref w b).abort =
          (w.abort || explicit_trait_object_in_ptr b)) ∧
    (∀ (_ : RefVisitor) (ps : List GenericParam), ∀ w,
        (RefVisitor.walk_generic_params w ps).abort =
          (w.abort || explicit_trait_object_in_params ps)) ∧
    (∀ (_ : RefVisitor) (p : GenericParam), ∀ w,
        (RefVisitor.walk_generic_param w p).abort =
          (w.abort || explicit_trait_object_in_param p)) ∧
    (∀ (_ : RefVisitor) (bs : List GenericBound), ∀ w,
        (RefVisitor.visit_param_bounds w bs).abort =
          (w.abort || explicit_trait_object_in_bounds bs)) ∧
    (∀ (_ : RefVisitor) (b : GenericBound), ∀ w,
        (RefVisitor.visit_param_bound w b).abort =
          (w.abort || explicit_trait_object_in_bound b)) ∧
    (∀ (_ : RefVisitor) (segs : List PathSegment), ∀ w,
        (RefVisitor.walk_segments w segs).abort =
          (w.abort || explicit_trait_object_in_segments segs)) ∧
    (∀ (_ : RefVisitor) (args : List GenericArg), ∀ w,
        (RefVisitor.visit_generic_args w args).abort =
          (w.abort || explicit_trait_object_in_args args)) := by
  apply RefVisitor.visit_ty.mutual_induct
  · intro v lt inner ih w
    by_cases h : lt.isElided <;>
      simp [RefVisitor.visit_ty, h, RefVisitor.record_none_delta,
        RefVisitor.visit_lifetime_delta, explicit_trait_object_in_ty, ih]
  · intro v segments bIO ih w
    simp [RefVisitor.visit_ty, RefVisitor.recordExistentialBounds_delta,
      explicit_trait_object_in_ty, ih]
  · intro v d segments hne ih w
    cases d with
    | existential bIO => exact absurd rfl (hne bIO)
    | tyAlias n =>
        simp [RefVisitor.visit_ty, RefVisitor.collect_anonymous_delta,
          explicit_trait_object_in_ty, ih]
    | structDef n =>
        simp [RefVisitor.visit_ty, RefVisitor.collect_anonymous_delta,
          explicit_trait_object_in_ty, ih]
    | traitDef n =>
        simp [RefVisitor.visit_ty, RefVisitor.collect_anonymous_delta,
          explicit_trait_object_in_ty, ih]
    | primTy =>
        simp [RefVisitor.visit_ty, RefVisitor.collect_anonymous_delta,
          explicit_trait_object_in_ty, ih]
    | err =>
        simp [RefVisitor.visit_ty, RefVisitor.collect_anonymous_delta,
          explicit_trait_object_in_ty, ih]
  · intro v bounds lt ih w
    by_cases h : lt.isElided <;>
      simp [RefVisitor.visit_ty, h, explicit_trait_object_in_ty, ih,
        Bool.or_assoc, Bool.or_comm, Bool.or_left_comm]
  · intro v tys ih w
    simp [RefVisitor.visit_ty, explicit_trait_object_in_ty, ih]
  · intro v bgs d segs ih5 ih9 w
    simp [RefVisitor.visit_poly_trait_ref, explicit_trait_object_in_ptr,
      ih5, ih9, Bool.or_assoc]
  · intro v name span bounds ih w
    simp [RefVisitor.walk_generic_param, explicit_trait_object_in_param, ih]
  · intro v name span bounds ih w
    simp [RefVisitor.walk_generic_param, explicit_trait_object_in_param, ih]
  · intro v name span dty bounds ih1 ih7 w
    simp [RefVisitor.walk_generic_param, explicit_trait_object_in_param,
      ih1, ih7, Bool.or_assoc]
  · intro v ptr ih w
    simp [RefVisitor.visit_param_bound, explicit_trait_object_in_bound, ih]
  · intro v lt w
    simp [RefVisitor.visit_param_bound, RefVisitor.visit_lifetime_delta,
      explicit_trait_object_in_bound]
  · intro v w
    simp [RefVisitor.walk_segments, explicit_trait_object_in_segments]
  · intro v rest ih w
    simp [RefVisitor.walk_segments, explicit_trait_object_in_segments, ih]
  · intro v p args rest ih10 ih9 w
    simp [RefVisitor.walk_segments, explicit_trait_object_in_segments,
      ih10, ih9, Bool.or_assoc]
  · intro v w
    simp [RefVisitor.visit_poly_trait_refs, explicit_trait_object_in_ptrs]
  · intro v b bs ih4 ih3 w
    simp [RefVisitor.visit_poly_trait_refs, explicit_trait_object_in_ptrs,
      ih4, ih3, Bool.or_assoc]
  · intro v w
    simp [RefVisitor.visit_tys, explicit_trait_object_in_tys]
  · intro v t ts ih1 ih2 w
    simp [RefVisitor.visit_tys, explicit_trait_object_in_tys, ih1, ih2,
      Bool.or_assoc]
  · intro v w
    simp [RefVisitor.visit_generic_args, explicit_trait_object_in_args]
  · intro v lt rest ih w
    simp [RefVisitor.visit_generic_args, RefVisitor.visit_lifetime_delta,
      explicit_trait_object_in_args, ih]
  · intro v t rest ih1 ih10 w
    simp [RefVisitor.visit_generic_args, explicit_trait_object_in_args,
      ih1, ih10, Bool.or_assoc]
  · intro v w
    simp [RefVisitor.walk_generic_params, explicit_trait_object_in_params]
  · intro v p ps ih6 ih5 w
    simp [RefVisitor.walk_generic_params, explicit_trait_object_in_params,
      ih6, ih5, Bool.or_assoc]
  · intro v w
    simp [RefVisitor.visit_param_bounds, explicit_trait_object_in_bounds]
  · intro v b bs ih8 ih7 w
    simp [RefVisitor.visit_param_bounds, explicit_trait_object_in_bounds,
      ih8, ih7, Bool.or_assoc]

theorem unnamed_mem_allowed (gens : List GenericParam) :
    RefLt.Unnamed ∈ allowed_lts_from gens := by
  simp [allowed_lts_from]

theorem static_mem_allowed (gens : List GenericParam) :
    RefLt.Static ∈ allowed_lts_from gens := by
  simp [allowed_lts_from]

theorem length_eq_dedup_length_iff {α : Type} [DecidableEq α] (l : List α) :
    l.length = l.dedup.length ↔ l.Nodup := by
  constructor
  · intro h
    have h2 := List.Sublist.eq_of_length (List.dedup_sublist l) h.symm
    rw [← h2]
    exact List.nodup_dedup l
  · intro h
    rw [List.dedup_eq_self.2 h]

/-- Named descriptors being allowed makes the whole allowed-set check of
`could_use_elision` pass, since `Unnamed` and `Static` are always allowed. -/
theorem all_allowed_of_named (gens : List GenericParam) (l : List RefLt)
    (hallowed : ∀ n : Name, RefLt.Named n ∈ l → RefLt.Named n ∈ allowed_lts_from gens) :
    (l.all fun lt => decide (lt ∈ allowed_lts_from gens)) = true := by
  rw [List.all_eq_true]
  intro lt hlt
  cases lt with
  | Unnamed => simpa using unnamed_mem_allowed gens
  | Static => simpa using static_mem_allowed gens
  | Named n => simpa using hallowed n hlt

/-- C1: for a signature where neither collector aborted, the body check
found no usable lifetime name, and every collected `Named` descriptor is
allowed, if the output sequence is non-empty then the signature is eligible
for elision exactly when the output sequence has one distinct descriptor,
the input sequence has exactly one descriptor, that descriptor is `Named`,
and the single output descriptor is the same `Named` value or `Unnamed`. -/
theorem claim_C1 (func : FnDecl) (body : Option Body)
    (gens : List GenericParam) (blts : List Lifetime) (ilts olts : List RefLt)
    (hin : (input_visitor func).intoVec = some ilts)
    (hout : (output_visitor func).intoVec = some olts)
    (hbody : body_uses_lifetime body = false)
    (hallowed : ∀ n : Name, RefLt.Named n ∈ lts_from_bounds ilts blts ++ olts →
        RefLt.Named n ∈ allowed_lts_from gens)
    (hne : olts ≠ []) :
    could_use_elision func body gens blts = true ↔
      (olts.dedup.length = 1 ∧ (lts_from_bounds ilts blts).length = 1 ∧
        ∃ n : Name, (lts_from_bounds ilts blts).head? = some (RefLt.Named n) ∧
          (olts.head? = some (RefLt.Named n) ∨ olts.head? = some RefLt.Unnamed)) := by
  have hall := all_allowed_of_named gens (lts_from_bounds ilts blts ++ olts) hallowed
  simp only [could_use_elision, elision_input_sequence, hin, hout, hbody, hall,
    Bool.false_eq_true, not_true, if_false]
  cases olts with
  | nil => exact absurd rfl hne
  | cons o os =>
    cases hIL : lts_from_bounds ilts blts with
    | nil => simp
    | cons x xs =>
      simp only [List.isEmpty_cons, Bool.false_eq_true, if_false]
      by_cases hu : unique_lifetimes (o :: os) > 1
      · rw [if_pos hu]
        simp only [Bool.false_eq_true, false_iff]
        intro h
        obtain ⟨h1, -⟩ := h
        simp only [unique_lifetimes] at hu
        omega
      · rw [if_neg hu]
        have h1 : (o :: os).dedup.length = 1 := by
          have hmem : o ∈ (o :: os).dedup := List.mem_dedup.2 (List.mem_cons_self o os)
          have hpos := List.length_pos.2 (List.ne_nil_of_mem hmem)
          simp only [unique_lifetimes] at hu
          omega
        by_cases hlen : (x :: xs).length = 1
        · rw [if_pos hlen]
          have hxs : xs = [] := by
            simpa [List.length_eq_zero] using hlen
          subst hxs
          cases x <;> cases o <;> simp [h1, eq_comm]
        · rw [if_neg hlen]
          simp only [Bool.false_eq_true, false_iff]
          intro h
          exact hlen h.2.1

/-- C2: for a signature where neither collector aborted, the body check
found no usable lifetime name and every collected `Named` descriptor is
allowed: when the input sequence is non-empty and the output sequence is
empty, the signature is not eligible when every input descriptor is unnamed
or static, and otherwise it is eligible exactly when the input descriptors
are pairwise distinct; and when the input sequence is empty the signature is
never eligible. -/
theorem claim_C2 (func : FnDecl) (body : Option Body)
    (gens : List GenericParam) (blts : List Lifetime) (ilts olts : List RefLt)
    (hin : (input_visitor func).intoVec = some ilts)
    (hout : (output_visitor func).intoVec = some olts)
    (hbody : body_uses_lifetime body = false)
    (hallowed : ∀ n : Name, RefLt.Named n ∈ lts_from_bounds ilts blts ++ olts →
        RefLt.Named n ∈ allowed_lts_from gens) :
    (olts = [] → lts_from_bounds ilts blts ≠ [] →
      ((∀ lt ∈ lts_from_bounds ilts blts, lt = RefLt.Unnamed ∨ lt = RefLt.Static) →
          could_use_elision func body gens blts = false) ∧
        (¬ (∀ lt ∈ lts_from_bounds ilts blts, lt = RefLt.Unnamed ∨ lt = RefLt.Static) →
          (could_use_elision func body gens blts = true ↔
            (lts_from_bounds ilts blts).Nodup))) ∧
    (lts_from_bounds ilts blts = [] →
      could_use_elision func body gens blts = false) := by
  constructor
  · intro holts hne
    subst holts
    have hall := all_allowed_of_named gens (lts_from_bounds ilts blts ++ []) hallowed
    have hILe : (lts_from_bounds ilts blts).isEmpty = false := by
      cases h : lts_from_bounds ilts blts with
      | nil => exact absurd h hne
      | cons a l => rfl
    constructor
    · intro hus
      have hb : ((lts_from_bounds ilts blts).all
          fun lt => decide (lt = RefLt.Unnamed ∨ lt = RefLt.Static)) = true := by
        rw [List.all_eq_true]
        intro lt hlt
        exact decide_eq_true (hus lt hlt)
      simp only [could_use_elision, elision_input_sequence, hin, hout, hbody, hall,
        hILe, hb, Bool.false_eq_true, not_true, if_false, List.isEmpty_nil, if_true]
    · intro hnot
      have hb : ¬ (((lts_from_bounds ilts blts).all
          fun lt => decide (lt = RefLt.Unnamed ∨ lt = RefLt.Static)) = true) := by
        intro hbad
        apply hnot
        rw [List.all_eq_true] at hbad
        intro lt hlt
        simpa using hbad lt hlt
      simp only [could_use_elision, elision_input_sequence, hin, hout, hbody, hall,
        hILe, Bool.false_eq_true, not_true, if_false, List.isEmpty_nil, if_true,
        eq_self_iff_true]
      rw [if_neg hb]
      simp [unique_lifetimes, length_eq_dedup_length_iff]
  · intro hILnil
    have hall := all_allowed_of_named gens (lts_from_bounds ilts blts ++ olts) hallowed
    simp only [could_use_elision, elision_input_sequence, hin, hout, hbody, hall,
      hILnil, List.isEmpty_nil, Bool.false_eq_true, not_true, if_false,
      eq_self_iff_true, if_true]
    split_ifs <;> rfl

/-- Closed witness for C1: the signature with one named-reference parameter,
one plain parameter and the same named reference returned is eligible. -/
theorem claim_C1_witness :
    could_use_elision ⟨[tyRefA, tyU8], FunctionRetTy.ret tyRefA⟩ none [paramLtA] [] = true := by
  have h := claim_C1 ⟨[tyRefA, tyU8], FunctionRetTy.ret tyRefA⟩ none [paramLtA] []
      [RefLt.Named "a"] [RefLt.Named "a"] (by decide) (by decide) (by decide)
      (fun n hn => by
        simp [lts_from_bounds] at hn
        subst hn
        decide)
      (by decide)
  exact h.2 ⟨by decide, by decide, "a", by decide, Or.inl (by decide)⟩

/-- Closed witness for C2: the signature with two distinct named-reference
parameters and no return type is eligible. -/
theorem claim_C2_witness :
    could_use_elision ⟨[tyRefA, tyRefB], FunctionRetTy.defaultReturn⟩ none
      [paramLtA, paramLtB] [] = true := by
  have h := claim_C2 ⟨[tyRefA, tyRefB], FunctionRetTy.defaultReturn⟩ none
      [paramLtA, paramLtB] [] [RefLt.Named "a", RefLt.Named "b"] []
      (by decide) (by decide) (by decide)
      (fun n hn => by
        simp [lts_from_bounds] at hn
        rcases hn with h | h <;> subst h <;> decide)
  exact ((h.1 rfl (by decide)).2 (by decide)).2 (by decide)

/-- Setting the abort flag during a visit of a member propagates to the
whole list visit. -/
theorem visit_tys_abort_of_mem : ∀ (tys : List Ty) (t : Ty), t ∈ tys →
    (RefVisitor.new.visit_ty t).abort = true →
    (RefVisitor.new.visit_tys tys).abort = true := by
  intro tys
  induction tys with
  | nil => intro t h; simp at h
  | cons a l ih =>
      intro t h habort
      rw [RefVisitor.visit_tys_cons]
      simp only [RefVisitor.delta_abort, Bool.or_eq_true]
      rcases List.mem_cons.1 h with h | h
      · subst h
        exact Or.inl habort
      · exact Or.inr (ih t h habort)

/-- C10: once the collector abort flag is set it is never cleared: a set
flag survives any further sequence of type visits, and if visiting any
member of the sequence sets the flag then the final extraction yields no
descriptor sequence. -/
theorem claim_C10 (v : RefVisitor) (tys : List Ty) :
    (v.abort = true → (v.visit_tys tys).abort = true) ∧
    ((∃ t ∈ tys, (RefVisitor.new.visit_ty t).abort = true) →
      (v.visit_tys tys).intoVec = none) := by
  constructor
  · intro hv
    rw [RefVisitor.visit_tys_delta]
    simp [hv]
  · rintro ⟨t, hmem, habort⟩
    have hab : (v.visit_tys tys).abort = true := by
      rw [RefVisitor.visit_tys_delta]
      simp [visit_tys_abort_of_mem tys t hmem habort]
    simp [RefVisitor.intoVec, hab]

/-- Closed witness for C10: a single trait-object visit with a named
lifetime sets the flag and the extraction returns nothing. -/
theorem claim_C10_witness :
    (RefVisitor.new.visit_tys [Ty.traitObject [] ⟨LifetimeName.param "x"⟩]).intoVec = none :=
  (claim_C10 RefVisitor.new [Ty.traitObject [] ⟨LifetimeName.param "x"⟩]).2
    ⟨Ty.traitObject [] ⟨LifetimeName.param "x"⟩, List.mem_cons_self _ _, by decide⟩

/-- C7: a trait object whose lifetime is not elided sets the abort flag
while its nested bounds are still visited; and a signature with an input
parameter type containing such a trait object is never eligible for
elision, whatever the other parameter and return types are. -/
theorem claim_C7 :
    (∀ (v : RefVisitor) (bounds : List PolyTraitRef) (lt : Lifetime),
        lt.isElided = false →
        RefVisitor.visit_ty v (Ty.traitObject bounds lt) =
          RefVisitor.visit_poly_trait_refs ⟨v.lts, true⟩ bounds) ∧
    (∀ (func : FnDecl) (body : Option Body) (gens : List GenericParam)
        (blts : List Lifetime) (t : Ty),
        t ∈ func.inputs → explicit_trait_object_in_ty t = true →
        could_use_elision func body gens blts = false) := by
  constructor
  · intro v bounds lt h
    simp [RefVisitor.visit_ty, h]
  · intro func body gens blts t hmem hbad
    have habt : (RefVisitor.new.visit_ty t).abort = true := by
      rw [RefVisitor.abort_iff.1 RefVisitor.new t RefVisitor.new]
      simp [hbad]
    have habort : (input_visitor func).abort = true :=
      visit_tys_abort_of_mem func.inputs t hmem habt
    have hnone : (input_visitor func).intoVec = none := by
      simp [RefVisitor.intoVec, habort]
    simp [could_use_elision, elision_input_sequence, hnone]

/-- Closed witness for C7: a trait-object parameter with the named lifetime
of ident x aborts the collector and forces not-eligible. -/
theorem claim_C7_witness :
    (RefVisitor.visit_ty RefVisitor.new (Ty.traitObject [] ⟨LifetimeName.param "x"⟩) =
      RefVisitor.visit_poly_trait_refs ⟨[], true⟩ []) ∧
    could_use_elision ⟨[Ty.traitObject [] ⟨LifetimeName.param "x"⟩],
      FunctionRetTy.defaultReturn⟩ none [] [] = false :=
  ⟨claim_C7.1 RefVisitor.new [] ⟨LifetimeName.param "x"⟩ (by decide),
   claim_C7.2 ⟨[Ty.traitObject [] ⟨LifetimeName.param "x"⟩], FunctionRetTy.defaultReturn⟩
     none [] [] (Ty.traitObject [] ⟨LifetimeName.param "x"⟩) (List.mem_cons_self _ _)
     (by decide)⟩

theorem any_lifetime_arg_eq_false_iff (args : List GenericArg) :
    ((args.any fun arg => match arg with
      | GenericArg.lifetimeArg _ => true
      | GenericArg.typeArg _ => false) = false) ↔
    ∀ lt : Lifetime, GenericArg.lifetimeArg lt ∉ args := by
  rw [List.any_eq_false]
  constructor
  · intro h lt hmem
    have := h _ hmem
    simp at this
  · intro h a hmem
    cases a with
    | lifetimeArg lt => exact absurd hmem (h lt)
    | typeArg t => simp

/-- Counterexample to C5 as stated: the path resolves to a struct with two
generic parameters and its argument list holds an explicit type argument
(and no lifetime argument), yet the collector still synthesizes one
`Unnamed` descriptor per generic parameter — the claim says the presence of
an explicit type argument prevents synthesis. -/
theorem claim_C5_counterexample :
    (GenericArg.typeArg (Ty.tup []) ∈ [GenericArg.typeArg (Ty.tup [])]) ∧
    RefVisitor.collect_anonymous_lifetimes RefVisitor.new (Def.structDef 2)
      [PathSegment.withArgs false [GenericArg.typeArg (Ty.tup [])]] =
      ⟨[RefLt.Unnamed, RefLt.Unnamed], false⟩ :=
  ⟨List.mem_cons_self _ _, by decide⟩

/-- C5 amended: for a path resolving to a type alias, struct or trait with
n generic parameters, the collector synthesizes exactly n `Unnamed`
descriptors exactly when the trailing segment carries an argument list that
is not parenthesized and has no explicit lifetime argument; explicit type
arguments do not prevent synthesis, and otherwise nothing is synthesized. -/
theorem claim_C5_amended (v : RefVisitor) (d : Def) (segments : List PathSegment)
    (n : Nat) (hd : d = Def.tyAlias n ∨ d = Def.structDef n ∨ d = Def.traitDef n) :
    (no_explicit_lifetime_args segments →
      v.collect_anonymous_lifetimes d segments =
        ⟨v.lts ++ List.replicate n RefLt.Unnamed, v.abort⟩) ∧
    (¬ no_explicit_lifetime_args segments →
      v.collect_anonymous_lifetimes d segments = v) := by
  rw [RefVisitor.collect_anonymous_delta]
  constructor
  · rintro ⟨args, hlast, hnolt⟩
    have hcount : anon_count d segments = n := by
      simp only [anon_count, hlast]
      rw [if_pos]
      · rcases hd with h | h | h <;> subst h <;> rfl
      · refine ⟨by simp, ?_⟩
        rw [Bool.not_eq_true, any_lifetime_arg_eq_false_iff]
        exact hnolt
    simp [hcount, RefVisitor.delta]
  · intro hnot
    have hcount : anon_count d segments = 0 := by
      simp only [anon_count]
      split
      · rename_i parenthesized args heq
        split_ifs with hc
        · exfalso
          apply hnot
          obtain ⟨hp, ha⟩ := hc
          have hp2 : parenthesized = false := by
            simpa using hp
          refine ⟨args, ?_, ?_⟩
          · rw [heq, hp2]
          · rw [← any_lifetime_arg_eq_false_iff]
            simpa using ha
        · rfl
      · rfl
    simp [hcount, RefVisitor.delta]

/-- Closed witness for the amended C5: a trait path with three generic
parameters and a type-only argument list gets three synthesized `Unnamed`
descriptors. -/
theorem claim_C5_amended_witness :
    RefVisitor.collect_anonymous_lifetimes RefVisitor.new (Def.traitDef 3)
      [PathSegment.withArgs false [GenericArg.typeArg (Ty.tup [])]] =
      ⟨List.replicate 3 RefLt.Unnamed, false⟩ :=
  (claim_C5_amended RefVisitor.new (Def.traitDef 3)
      [PathSegment.withArgs false [GenericArg.typeArg (Ty.tup [])]] 3
      (Or.inr (Or.inr rfl))).1
    ⟨[GenericArg.typeArg (Ty.tup [])], rfl, fun lt h => by simp at h⟩

/-- Counterexample to C6 as stated: a signature with a parameter whose path
the compiler cannot resolve is still reported eligible — the collector does
not abort on an unresolved path. -/
theorem claim_C6_counterexample :
    could_use_elision ⟨[tyRefA, Ty.path Def.err [PathSegment.noArgs]],
      FunctionRetTy.ret tyRefA⟩ none [paramLtA] [] = true := by decide

/-- C6 amended: a path the compiler cannot resolve contributes no
synthesized descriptor and does not set the abort flag: visiting it is the
same as only walking the generic arguments of its segments. -/
theorem claim_C6_amended (v : RefVisitor) (segments : List PathSegment) :
    RefVisitor.visit_ty v (Ty.path Def.err segments) =
      RefVisitor.walk_segments v segments := by
  have hc : v.collect_anonymous_lifetimes Def.err segments = v := by
    rw [RefVisitor.collect_anonymous_delta]
    have hcount : anon_count Def.err segments = 0 := by
      simp only [anon_count]
      split
      · split_ifs <;> rfl
      · rfl
    simp [hcount, RefVisitor.delta]
  simp [RefVisitor.visit_ty, hc]

theorem lts_from_bounds_eq (blts : List Lifetime) : ∀ vec : List RefLt,
    lts_from_bounds vec blts =
      vec ++ (blts.filter fun lt => decide (lt.name ≠ LifetimeName.statik)).map
        (fun lt => RefLt.Named lt.name.identName) := by
  induction blts with
  | nil => intro vec; simp [lts_from_bounds]
  | cons lt rest ih =>
      intro vec
      simp only [lts_from_bounds]
      by_cases h : lt.name = LifetimeName.statik
      · rw [if_neg (not_not_intro h), ih]
        simp [List.filter_cons, h]
      · rw [if_pos h, ih]
        simp [List.filter_cons, h, List.append_assoc]

theorem process_bound_lifetimes_mem (lts : List Lifetime) : ∀ acc blts,
    process_bound_lifetimes acc lts = some blts →
    ∀ lt ∈ blts, lt ∈ acc ∨ lt.name = LifetimeName.statik ∨ lt.isElided = true := by
  induction lts with
  | nil =>
      intro acc blts h lt hmem
      simp only [process_bound_lifetimes, Option.some.injEq] at h
      subst h
      exact Or.inl hmem
  | cons l rest ih =>
      intro acc blts h lt hmem
      simp only [process_bound_lifetimes] at h
      split_ifs at h with hc
      rcases ih (acc ++ [l]) blts h lt hmem with hmem2 | hP
      · rcases List.mem_append.1 hmem2 with ha | hl
        · exact Or.inl ha
        · have heq : lt = l := by simpa using hl
          subst heq
          right
          by_cases hs : lt.name = LifetimeName.statik
          · exact Or.inl hs
          · right
            by_cases he : lt.isElided = true
            · exact he
            · exact absurd ⟨hs, by simpa using he⟩ hc
      · exact Or.inr hP

theorem process_bound_mem (acc : List Lifetime) (bound : GenericBound)
    (blts : List Lifetime) (h : process_bound acc bound = some blts) :
    ∀ lt ∈ blts, lt ∈ acc ∨ lt.name = LifetimeName.statik ∨ lt.isElided = true := by
  simp only [process_bound] at h
  split_ifs at h with hn
  exact process_bound_lifetimes_mem _ acc blts h

theorem process_param_bounds_mem (bounds : List GenericBound) : ∀ acc blts,
    process_param_bounds acc bounds = some blts →
    ∀ lt ∈ blts, lt ∈ acc ∨ lt.name = LifetimeName.statik ∨ lt.isElided = true := by
  induction bounds with
  | nil =>
      intro acc blts h lt hmem
      simp only [process_param_bounds, Option.some.injEq] at h
      subst h
      exact Or.inl hmem
  | cons b rest ih =>
      intro acc blts h lt hmem
      simp only [process_param_bounds] at h
      cases hb : process_bound acc b with
      | none => rw [hb] at h; simp at h
      | some acc2 =>
          rw [hb] at h
          rcases ih acc2 blts h lt hmem with h2 | hP
          · rcases process_bound_mem acc b acc2 hb lt h2 with h3 | hP
            · exact Or.inl h3
            · exact Or.inr hP
          · exact Or.inr hP

theorem collect_bounds_lts_mem (params : List GenericParam) : ∀ acc blts,
    collect_bounds_lts acc params = some blts →
    ∀ lt ∈ blts, lt ∈ acc ∨ lt.name = LifetimeName.statik ∨ lt.isElided = true := by
  induction params with
  | nil =>
      intro acc blts h lt hmem
      simp only [collect_bounds_lts, Option.some.injEq] at h
      subst h
      exact Or.inl hmem
  | cons p rest ih =>
      intro acc blts h lt hmem
      cases p with
      | mk name span kind bounds =>
          cases kind with
          | lifetimeKind =>
              simp only [collect_bounds_lts] at h
              exact ih acc blts h lt hmem
          | typeKind dty =>
              simp only [collect_bounds_lts] at h
              cases hb : process_param_bounds acc bounds with
              | none => rw [hb] at h; simp at h
              | some acc2 =>
                  rw [hb] at h
                  rcases ih acc2 blts h lt hmem with h2 | hP
                  · rcases process_param_bounds_mem bounds acc acc2 hb lt h2 with h3 | hP
                    · exact Or.inl h3
                    · exact Or.inr hP
                  · exact Or.inr hP

/-- C8: every bound lifetime harvested from the trait bounds of the
declared type parameters is static or elided; `lts_from_bounds` appends
every harvested non-static lifetime to the given sequence as a `Named`
descriptor of its ident; and the input sequence the elision decision uses
is exactly the collected parameter-type sequence extended that way. -/
theorem claim_C8 (params : List GenericParam) (blts : List Lifetime)
    (func : FnDecl) (ilts : List RefLt)
    (hharvest : collect_bounds_lts [] params = some blts)
    (hin : (input_visitor func).intoVec = some ilts) :
    (∀ lt ∈ blts, lt.name = LifetimeName.statik ∨ lt.isElided = true) ∧
    (∀ vec : List RefLt, lts_from_bounds vec blts =
      vec ++ (blts.filter fun lt => decide (lt.name ≠ LifetimeName.statik)).map
        (fun lt => RefLt.Named lt.name.identName)) ∧
    elision_input_sequence func blts =
      some (ilts ++
        (blts.filter fun lt => decide (lt.name ≠ LifetimeName.statik)).map
          (fun lt => RefLt.Named lt.name.identName)) := by
  refine ⟨?_, lts_from_bounds_eq blts, ?_⟩
  · intro lt hmem
    rcases collect_bounds_lts_mem params [] blts hharvest lt hmem with h | h
    · simp at h
    · exact h
  · simp [elision_input_sequence, hin, lts_from_bounds_eq]

/-- Closed witness for C8: a type parameter bounded by a trait carrying a
static and an underscore lifetime argument harvests both; the underscore
one is folded into the input sequence as a `Named` descriptor. -/
theorem claim_C8_witness :
    (∀ lt ∈ [Lifetime.mk LifetimeName.statik, Lifetime.mk LifetimeName.underscore],
      lt.name = LifetimeName.statik ∨ lt.isElided = true) ∧
    elision_input_sequence ⟨[tyRefA], FunctionRetTy.defaultReturn⟩
      [Lifetime.mk LifetimeName.statik, Lifetime.mk LifetimeName.underscore] =
      some [RefLt.Named "a", RefLt.Named "_"] := by
  have h := claim_C8
    [GenericParam.mk "T" 2 (GenericParamKind.typeKind none)
      [GenericBound.traitBound (PolyTraitRef.mk [] (Def.traitDef 1)
        [PathSegment.withArgs false
          [GenericArg.lifetimeArg ⟨LifetimeName.statik⟩,
           GenericArg.lifetimeArg ⟨LifetimeName.underscore⟩]])]]
    [Lifetime.mk LifetimeName.statik, Lifetime.mk LifetimeName.underscore]
    ⟨[tyRefA], FunctionRetTy.defaultReturn⟩ [RefLt.Named "a"]
    (by decide) (by decide)
  refine ⟨h.1, ?_⟩
  rw [h.2.2]
  decide

/-- Counterexample to C3 as stated: on `cPredsC3` the scanner returns false
although a bare region-outlives predicate is present — an aborted bound
walk makes the scan stop early with false, masking later predicates. -/
theorem claim_C3_counterexample :
    ¬ (has_where_lifetimes cPredsC3 = true ↔
        ∃ p ∈ cPredsC3, predicate_triggers_bailout p) := by
  intro h
  have h2 : ∃ p ∈ cPredsC3, predicate_triggers_bailout p :=
    ⟨WherePredicate.regionPredicate ⟨LifetimeName.statik⟩ [],
      List.mem_cons_of_mem _ (List.mem_cons_self _ _), trivial⟩
  have h1 : has_where_lifetimes cPredsC3 = true := h.2 h2
  exact absurd h1 (by decide)

/-- C3 amended: provided no bound predicate of the list makes the collector
abort (no nested trait object with a non-elided lifetime in its bounded
type or bounds), the scanner returns true exactly when some predicate
triggers one of the bail-out conditions; with an abort the scan stops early
with false. -/
theorem claim_C3_amended (preds : List WherePredicate)
    (hnoabort : ∀ params bty bounds,
      WherePredicate.boundPredicate params bty bounds ∈ preds →
      ((RefVisitor.new.walk_ty bty).visit_param_bounds bounds).abort = false) :
    has_where_lifetimes preds = true ↔
      ∃ p ∈ preds, predicate_triggers_bailout p := by
  induction preds with
  | nil => simp [has_where_lifetimes]
  | cons p rest ih =>
    have ihr := ih (fun params bty bounds hmem =>
      hnoabort params bty bounds (List.mem_cons_of_mem _ hmem))
    cases p with
    | regionPredicate lt bounds =>
        simp only [has_where_lifetimes]
        constructor
        · intro _
          exact ⟨_, List.mem_cons_self _ _, trivial⟩
        · intro _
          trivial
    | boundPredicate params bty bounds =>
        have habort := hnoabort params bty bounds (List.mem_cons_self _ _)
        have hdecomp := RefVisitor.visit_param_bounds_delta (RefVisitor.new.walk_ty bty) bounds
        simp only [has_where_lifetimes]
        by_cases h1 : (RefVisitor.new.walk_ty bty).lts = []
        · rw [if_neg (by simp [List.isEmpty_iff, h1])]
          rw [hdecomp] at habort
          simp only [RefVisitor.delta_abort, Bool.or_eq_false_iff] at habort
          have hsome : ((RefVisitor.new.walk_ty bty).visit_param_bounds bounds).intoVec =
              some ((RefVisitor.new.visit_param_bounds bounds).lts) := by
            rw [hdecomp]
            simp [RefVisitor.intoVec, habort.1, habort.2, h1]
          simp only [hsome]
          by_cases h2 : (((RefVisitor.new.visit_param_bounds bounds).lts).any
              fun lt => decide (lt ∉ allowed_lts_from params)) = true
          · rw [if_pos h2]
            simp only [true_iff]
            refine ⟨_, List.mem_cons_self _ _, ?_⟩
            right
            rw [List.any_eq_true] at h2
            obtain ⟨lt, hmem, hdec⟩ := h2
            exact ⟨lt, hmem, by simpa using hdec⟩
          · rw [if_neg h2]
            have h3 : ∀ lt ∈ (RefVisitor.new.visit_param_bounds bounds).lts,
                lt ∈ allowed_lts_from params := by
              rw [Bool.not_eq_true, List.any_eq_false] at h2
              intro lt hm
              have := h2 lt hm
              simpa using this
            rw [ihr]
            constructor
            · rintro ⟨q, hq, ht⟩
              exact ⟨q, List.mem_cons_of_mem _ hq, ht⟩
            · rintro ⟨q, hq, ht⟩
              rcases List.mem_cons.1 hq with rfl | hq2
              · exfalso
                rcases ht with hta | htb
                · exact hta h1
                · obtain ⟨lt, hmem, hna⟩ := htb
                  exact hna (h3 lt hmem)
              · exact ⟨q, hq2, ht⟩
        · rw [if_pos (by simp [List.isEmpty_iff, h1])]
          simp only [true_iff]
          exact ⟨_, List.mem_cons_self _ _, Or.inl h1⟩
    | eqPredicate lhs rhs =>
        have hdec : ((RefVisitor.new.walk_ty lhs).walk_ty rhs).lts =
            (RefVisitor.new.walk_ty lhs).lts ++ (RefVisitor.new.walk_ty rhs).lts := by
          rw [RefVisitor.walk_ty_delta (RefVisitor.new.walk_ty lhs) rhs]
          simp
        simp only [has_where_lifetimes]
        by_cases h1 : ((RefVisitor.new.walk_ty lhs).walk_ty rhs).lts.isEmpty = true
        · rw [if_neg (by simp [h1])]
          rw [hdec] at h1
          simp only [List.isEmpty_iff, List.append_eq_nil] at h1
          rw [ihr]
          constructor
          · rintro ⟨q, hq, ht⟩
            exact ⟨q, List.mem_cons_of_mem _ hq, ht⟩
          · rintro ⟨q, hq, ht⟩
            rcases List.mem_cons.1 hq with rfl | hq2
            · exfalso
              rcases ht with h | h
              · exact h h1.1
              · exact h h1.2
            · exact ⟨q, hq2, ht⟩
        · rw [if_pos (by simpa using h1)]
          simp only [true_iff]
          refine ⟨_, List.mem_cons_self _ _, ?_⟩
          rw [hdec] at h1
          by_cases hl : (RefVisitor.new.walk_ty lhs).lts = []
          · right
            intro hr
            exact h1 (by simp [List.isEmpty_iff, hl, hr])
          · exact Or.inl hl

/-- Closed witness for the amended C3: an equality predicate whose left
side contains a lifetime reference makes the scanner bail out. -/
theorem claim_C3_amended_witness :
    has_where_lifetimes [WherePredicate.eqPredicate tyRefA tyU8] = true :=
  (claim_C3_amended [WherePredicate.eqPredicate tyRefA tyU8]
      (fun params bty bounds hmem => by simp at hmem)).2
    ⟨WherePredicate.eqPredicate tyRefA tyU8, List.mem_cons_self _ _,
      Or.inl (by decide)⟩

/-- Counterexample to C4 as stated: with a region-outlives predicate in the
where clause the driver returns no unused-lifetime findings at all, even
though the detector run on the same signature reports the unused lifetime
parameter of ident a — the findings are not independent of the scanner. -/
theorem claim_C4_counterexample :
    has_where_lifetimes [WherePredicate.regionPredicate ⟨LifetimeName.statik⟩ []] = true ∧
    (check_fn_inner false ⟨[tyU8], FunctionRetTy.defaultReturn⟩ none
      ⟨[paramLtA], [WherePredicate.regionPredicate ⟨LifetimeName.statik⟩ []]⟩).2 = [] ∧
    report_extra_lifetimes ⟨[tyU8], FunctionRetTy.defaultReturn⟩
      ⟨[paramLtA], [WherePredicate.regionPredicate ⟨LifetimeName.statik⟩ []]⟩ =
      [("a", 0)] := by
  refine ⟨by decide, by decide, by decide⟩

/-- C4 amended: the unused-lifetime findings are independent of the body
and of the elision verdict, but they are produced only when the signature
is not externally generated, the constraint-clause scanner does not bail
out, and the bound harvesting does not fail; in each suppressed case the
driver returns no findings. -/
theorem claim_C4_amended (mac : Bool) (decl : FnDecl) (body : Option Body)
    (generics : Generics) :
    (∀ body2 : Option Body, (check_fn_inner mac decl body generics).2 =
        (check_fn_inner mac decl body2 generics).2) ∧
    (mac = true ∨ has_where_lifetimes generics.whereClause = true →
      check_fn_inner mac decl body generics = (false, [])) ∧
    (collect_bounds_lts [] generics.params = none →
      check_fn_inner mac decl body generics = (false, [])) ∧
    (∀ blts : List Lifetime, mac = false →
      has_where_lifetimes generics.whereClause = false →
      collect_bounds_lts [] generics.params = some blts →
      (check_fn_inner mac decl body generics).2 = report_extra_lifetimes decl generics) := by
  refine ⟨?_, ?_, ?_, ?_⟩
  · intro body2
    simp only [check_fn_inner]
    by_cases h : (mac || has_where_lifetimes generics.whereClause) = true
    · rw [if_pos h, if_pos h]
    · rw [if_neg h, if_neg h]
      cases collect_bounds_lts [] generics.params <;> rfl
  · intro h
    have hc : (mac || has_where_lifetimes generics.whereClause) = true := by
      rcases h with h | h <;> simp [h]
    simp only [check_fn_inner, hc, if_true]
  · intro h
    simp only [check_fn_inner]
    by_cases hc : (mac || has_where_lifetimes generics.whereClause) = true
    · rw [if_pos hc]
    · rw [if_neg hc, h]
  · intro blts hmac hwl hharvest
    simp only [check_fn_inner, hmac, hwl, Bool.or_self, Bool.false_eq_true, if_false,
      hharvest]

/-- Closed witness for the amended C4: with an empty where clause and no
type-parameter bounds, the findings of the driver are those of the detector. -/
theorem claim_C4_amended_witness :
    (check_fn_inner false ⟨[tyU8], FunctionRetTy.defaultReturn⟩ none
      ⟨[paramLtA], []⟩).2 =
      report_extra_lifetimes ⟨[tyU8], FunctionRetTy.defaultReturn⟩ ⟨[paramLtA], []⟩ :=
  (claim_C4_amended false ⟨[tyU8], FunctionRetTy.defaultReturn⟩ none
      ⟨[paramLtA], []⟩).2.2.2 [] rfl (by decide) (by decide)

theorem filter_comp {α : Type} (m : List α) (A B : α → Bool) :
    (m.filter A).filter B = m.filter (fun a => A a && B a) := by
  rw [List.filter_filter]
  exact List.filter_congr (fun a _ => by rw [Bool.and_comm])

theorem decide_not_mem_nil {α : Type} [DecidableEq α] (x : α) :
    decide (x ∉ ([] : List α)) = true := by simp

theorem decide_not_mem_cons {α : Type} [DecidableEq α] (x a : α) (l : List α) :
    decide (x ∉ a :: l) = (decide (x ≠ a) && decide (x ∉ l)) := by
  by_cases h1 : x = a <;> by_cases h2 : x ∈ l <;> simp [h1, h2]

theorem decide_not_mem_append {α : Type} [DecidableEq α] (x : α) (A B : List α) :
    decide (x ∉ A ++ B) = (decide (x ∉ A) && decide (x ∉ B)) := by
  by_cases hA : x ∈ A <;> by_cases hB : x ∈ B <;> simp [hA, hB]

theorem decide_not_mem_singleton {α : Type} [DecidableEq α] (x a : α) :
    decide (x ∉ [a]) = decide (x ≠ a) := by
  by_cases h : x = a <;> simp [h]

/-- The remove-on-visit detector equals the two-phase set difference: after
any walk, the map keeps exactly the entries whose ident was not
encountered. -/
theorem LifetimeChecker.filter_iff :
    (∀ (_ : LtMap) (t : Ty), ∀ m : LtMap,
        LifetimeChecker.visit_ty m t =
          m.filter (fun p => decide (p.1 ∉ used_lt_names_ty t))) ∧
    (∀ (_ : LtMap) (ts : List Ty), ∀ m : LtMap,
        LifetimeChecker.visit_tys m ts =
          m.filter (fun p => decide (p.1 ∉ used_lt_names_tys ts))) ∧
    (∀ (_ : LtMap) (bs : List PolyTraitRef), ∀ m : LtMap,
        LifetimeChecker.visit_poly_trait_refs m bs =
          m.filter (fun p => decide (p.1 ∉ used_lt_names_ptrs bs))) ∧
    (∀ (_ : LtMap) (b : PolyTraitRef), ∀ m : LtMap,
        LifetimeChecker.visit_poly_trait_ref m b =
          m.filter (fun p => decide (p.1 ∉ used_lt_names_ptr b))) ∧
    (∀ (_ : LtMap) (ps : List GenericParam), ∀ m : LtMap,
        LifetimeChecker.visit_generic_params m ps =
          m.filter (fun p => decide (p.1 ∉ used_lt_names_params ps))) ∧
    (∀ (_ : LtMap) (p : GenericParam), ∀ m : LtMap,
        LifetimeChecker.visit_generic_param m p =
          m.filter (fun q => decide (q.1 ∉ used_lt_names_param p))) ∧
    (∀ (_ : LtMap) (bs : List GenericBound), ∀ m : LtMap,
        LifetimeChecker.visit_param_bounds m bs =
          m.filter (fun p => decide (p.1 ∉ used_lt_names_bounds bs))) ∧
    (∀ (_ : LtMap) (b : GenericBound), ∀ m : LtMap,
        LifetimeChecker.visit_param_bound m b =
          m.filter (fun p => decide (p.1 ∉ used_lt_names_bound b))) ∧
    (∀ (_ : LtMap) (segs : List PathSegment), ∀ m : LtMap,
        LifetimeChecker.walk_segments m segs =
          m.filter (fun p => decide (p.1 ∉ used_lt_names_segments segs))) ∧
    (∀ (_ : LtMap) (args : List GenericArg), ∀ m : LtMap,
        LifetimeChecker.visit_generic_args m args =
          m.filter (fun p => decide (p.1 ∉ used_lt_names_args args))) := by
  apply LifetimeChecker.visit_ty.mutual_induct
  · intro v lt inner ih m
    simp only [LifetimeChecker.visit_ty, LifetimeChecker.visit_lifetime,
      used_lt_names_ty, ih, filter_comp, decide_not_mem_cons]
  · intro v d segments ih m
    simp only [LifetimeChecker.visit_ty, used_lt_names_ty, ih]
  · intro v bounds lt ih m
    simp only [LifetimeChecker.visit_ty, LifetimeChecker.visit_lifetime,
      used_lt_names_ty, ih, filter_comp, decide_not_mem_append,
      decide_not_mem_singleton]
  · intro v tys ih m
    simp only [LifetimeChecker.visit_ty, used_lt_names_ty, ih]
  · intro v bgs d segs ih5 ih9 m
    simp only [LifetimeChecker.visit_poly_trait_ref, used_lt_names_ptr, ih5, ih9,
      filter_comp, decide_not_mem_append]
  · intro v name span bounds m
    simp only [LifetimeChecker.visit_generic_param, used_lt_names_param]
    simp
  · intro v name span bounds ih m
    simp only [LifetimeChecker.visit_generic_param, used_lt_names_param, ih]
  · intro v name span dty bounds ih1 ih7 m
    simp only [LifetimeChecker.visit_generic_param, used_lt_names_param, ih1, ih7,
      filter_comp, decide_not_mem_append]
  · intro v ptr ih m
    simp only [LifetimeChecker.visit_param_bound, used_lt_names_bound, ih]
  · intro v lt m
    simp only [LifetimeChecker.visit_param_bound, LifetimeChecker.visit_lifetime,
      used_lt_names_bound]
    exact List.filter_congr (fun p _ => by rw [decide_not_mem_singleton])
  · intro v m
    simp only [used_lt_names_segments, LifetimeChecker.walk_segments]
    simp
  · intro v rest ih m
    simp only [LifetimeChecker.walk_segments, used_lt_names_segments, ih]
  · intro v parenthesized args rest ih10 ih9 m
    simp only [LifetimeChecker.walk_segments, used_lt_names_segments, ih10, ih9,
      filter_comp, decide_not_mem_append]
  · intro v m
    simp only [used_lt_names_ptrs, LifetimeChecker.visit_poly_trait_refs]
    simp
  · intro v b bs ih4 ih3 m
    simp only [LifetimeChecker.visit_poly_trait_refs, used_lt_names_ptrs, ih4, ih3,
      filter_comp, decide_not_mem_append]
  · intro v m
    simp only [used_lt_names_tys, LifetimeChecker.visit_tys]
    simp
  · intro v t ts ih1 ih2 m
    simp only [LifetimeChecker.visit_tys, used_lt_names_tys, ih1, ih2,
      filter_comp, decide_not_mem_append]
  · intro v m
    simp only [used_lt_names_args, LifetimeChecker.visit_generic_args]
    simp
  · intro v lt rest ih m
    simp only [LifetimeChecker.visit_generic_args, LifetimeChecker.visit_lifetime,
      used_lt_names_args, ih, filter_comp, decide_not_mem_cons]
  · intro v t rest ih1 ih10 m
    simp only [LifetimeChecker.visit_generic_args, used_lt_names_args, ih1, ih10,
      filter_comp, decide_not_mem_append]
  · intro v m
    simp only [used_lt_names_params, LifetimeChecker.visit_generic_params]
    simp
  · intro v p ps ih6 ih5 m
    simp only [LifetimeChecker.visit_generic_params, used_lt_names_params, ih6, ih5,
      filter_comp, decide_not_mem_append]
  · intro v m
    simp only [used_lt_names_bounds, LifetimeChecker.visit_param_bounds]
    simp
  · intro v b bs ih8 ih7 m
    simp only [LifetimeChecker.visit_param_bounds, used_lt_names_bounds, ih8, ih7,
      filter_comp, decide_not_mem_append]

theorem lc_ty_filter (m : LtMap) (t : Ty) :
    LifetimeChecker.visit_ty m t =
      m.filter (fun p => decide (p.1 ∉ used_lt_names_ty t)) :=
  LifetimeChecker.filter_iff.1 [] t m

theorem lc_tys_filter (m : LtMap) (ts : List Ty) :
    LifetimeChecker.visit_tys m ts =
      m.filter (fun p => decide (p.1 ∉ used_lt_names_tys ts)) :=
  LifetimeChecker.filter_iff.2.1 [] ts m

theorem lc_params_filter (m : LtMap) (ps : List GenericParam) :
    LifetimeChecker.visit_generic_params m ps =
      m.filter (fun p => decide (p.1 ∉ used_lt_names_params ps)) :=
  LifetimeChecker.filter_iff.2.2.2.2.1 [] ps m

theorem lc_bounds_filter (m : LtMap) (bs : List GenericBound) :
    LifetimeChecker.visit_param_bounds m bs =
      m.filter (fun p => decide (p.1 ∉ used_lt_names_bounds bs)) :=
  LifetimeChecker.filter_iff.2.2.2.2.2.2.1 [] bs m

theorem lc_where_predicate_filter (m : LtMap) (p : WherePredicate) :
    LifetimeChecker.visit_where_predicate m p =
      m.filter (fun q => decide (q.1 ∉ used_lt_names_where_predicate p)) := by
  cases p with
  | boundPredicate params boundedTy bounds =>
      simp only [LifetimeChecker.visit_where_predicate, used_lt_names_where_predicate,
        lc_ty_filter, lc_bounds_filter, lc_params_filter, filter_comp,
        decide_not_mem_append]
  | regionPredicate lt bounds =>
      simp only [LifetimeChecker.visit_where_predicate, used_lt_names_where_predicate,
        LifetimeChecker.visit_lifetime, lc_bounds_filter, filter_comp,
        decide_not_mem_cons]
  | eqPredicate lhsTy rhsTy =>
      simp only [LifetimeChecker.visit_where_predicate, used_lt_names_where_predicate,
        lc_ty_filter, filter_comp, decide_not_mem_append]

theorem lc_where_predicates_filter (ps : List WherePredicate) : ∀ m : LtMap,
    LifetimeChecker.visit_where_predicates m ps =
      m.filter (fun q => decide (q.1 ∉ used_lt_names_where_predicates ps)) := by
  induction ps with
  | nil =>
      intro m
      simp only [LifetimeChecker.visit_where_predicates, used_lt_names_where_predicates]
      simp
  | cons p rest ih =>
      intro m
      simp only [LifetimeChecker.visit_where_predicates, used_lt_names_where_predicates,
        lc_where_predicate_filter, ih, filter_comp, decide_not_mem_append]

theorem lc_walk_generics_filter (m : LtMap) (generics : Generics) :
    LifetimeChecker.walk_generics m generics =
      m.filter (fun q => decide (q.1 ∉ used_lt_names_generics generics)) := by
  simp only [LifetimeChecker.walk_generics, used_lt_names_generics,
    lc_params_filter, lc_where_predicates_filter, filter_comp, decide_not_mem_append]

theorem lc_walk_fn_decl_filter (m : LtMap) (func : FnDecl) :
    LifetimeChecker.walk_fn_decl m func =
      m.filter (fun q => decide (q.1 ∉ used_lt_names_fn_decl func)) := by
  cases h : func.output with
  | ret ty =>
      simp only [LifetimeChecker.walk_fn_decl, used_lt_names_fn_decl, h,
        lc_tys_filter, lc_ty_filter, filter_comp, decide_not_mem_append]
  | defaultReturn =>
      simp only [LifetimeChecker.walk_fn_decl, used_lt_names_fn_decl, h,
        lc_tys_filter]
      simp

/-- C9: the reported unused-lifetime findings are exactly the declared
lifetime parameters whose ident is referenced nowhere else in the signature
(type-parameter bounds and defaults, where clause, parameter types, return
type), one finding per such declaration, carrying the declaration span;
an ident occurring only inside the declaration list (for instance as an
outlives bound of another lifetime parameter) still counts as unused. -/
theorem claim_C9 (func : FnDecl) (generics : Generics)
    (_hnodup : ((declared_lifetimes generics.params).map Prod.fst).Nodup) :
    report_extra_lifetimes func generics =
      (declared_lifetimes generics.params).filter
        (fun p => decide (p.1 ∉ signature_lifetime_uses func generics)) := by
  simp only [report_extra_lifetimes, lc_walk_generics_filter, lc_walk_fn_decl_filter,
    signature_lifetime_uses, filter_comp, decide_not_mem_append]

/-- Closed witness for C9: with a parameter list declaring the lifetime of
ident a bounded to outlive the declared lifetime of ident b, and neither
ident used anywhere else, both declarations are reported unused. -/
theorem claim_C9_witness :
    report_extra_lifetimes ⟨[tyU8], FunctionRetTy.defaultReturn⟩
      ⟨[GenericParam.mk "a" 0 GenericParamKind.lifetimeKind
          [GenericBound.outlives ⟨LifetimeName.param "b"⟩],
        GenericParam.mk "b" 1 GenericParamKind.lifetimeKind []], []⟩ =
      [("a", 0), ("b", 1)] := by
  rw [claim_C9 ⟨[tyU8], FunctionRetTy.defaultReturn⟩
      ⟨[GenericParam.mk "a" 0 GenericParamKind.lifetimeKind
          [GenericBound.outlives ⟨LifetimeName.param "b"⟩],
        GenericParam.mk "b" 1 GenericParamKind.lifetimeKind []], []⟩ (by decide)]
  decide
